import Mathlib

/-!
Verification development for the rat-brain-atlas implant visualizer
(`rat_brain_atlas_api.py`).  The Python module is shallowly embedded:

* the pure target geometry of `plot_implant_coords` becomes real-number
  functions (`_sind`, `_cosd`, `deriveTargets`);
* HTTP transport, JSON parsing and image decoding are external
  capabilities supplied by an `Env` record;
* Pillow images are mutable heap objects, so the heap is explicit: an
  image is an address into a list of `ImgVal` cells, each cell holding
  the decoded source content and the list of filled circles drawn on it;
* Python exceptions become `Except` values, and the sequence of metadata
  GET requests issued is threaded through a `St` record so that
  propagation and short-circuiting are observable.
-/

/-! ## Angle geometry (lines 198-245 of the source) -/

/-- `_sind(deg)` from the source: sine of an angle given in degrees,
converted to radians via `math.radians`. -/
noncomputable def _sind (deg : ℝ) : ℝ := Real.sin (deg * Real.pi / 180)

/-- `_cosd(deg)` from the source: cosine of an angle given in degrees. -/
noncomputable def _cosd (deg : ℝ) : ℝ := Real.cos (deg * Real.pi / 180)

/-- A stereotaxic point (AP, ML, DV), in millimeters. -/
structure Point3 where
  ap : ℝ
  ml : ℝ
  dv : ℝ

/-- The derived implant targets: the bottom triplet always, and the top
triplet only when a vertical span was requested.  The top triple is
stored in source order `(center_top, left_top, right_top)`. -/
structure Targets where
  center_bot : Point3
  left_bot : Point3
  right_bot : Point3
  tops : Option (Point3 × Point3 × Point3)

/-- The target-derivation fragment of `plot_implant_coords`
(source lines 224-245).  `vert_span` is the tri-state depth parameter:
the source uses `float("nan")` for "not requested" and guards every use
with `math.isnan`; that sentinel is embedded as `Option ℝ` (`none` =
NaN sentinel).  Note the source applies the trig functions to the
NEGATED angle (`_sind(-angle)`, `_cosd(-angle)`). -/
noncomputable def deriveTargets (AP ML DV angle span skull_t : ℝ)
    (vert_span : Option ℝ) : Targets :=
  let span_mm := span / 1000
  let skull_mm := skull_t / 1000
  let center_bot : Point3 := ⟨AP, ML, DV + skull_mm⟩
  let left_bot : Point3 :=
    ⟨AP - _sind (-angle) * span_mm / 2, ML - _cosd (-angle) * span_mm / 2, DV + skull_mm⟩
  let right_bot : Point3 :=
    ⟨AP + _sind (-angle) * span_mm / 2, ML + _cosd (-angle) * span_mm / 2, DV + skull_mm⟩
  match vert_span with
  | none => ⟨center_bot, left_bot, right_bot, none⟩
  | some v =>
    let vert_mm := v / 1000
    ⟨center_bot, left_bot, right_bot,
      some (⟨center_bot.ap, center_bot.ml, center_bot.dv - vert_mm⟩,
            ⟨left_bot.ap, left_bot.ml, left_bot.dv - vert_mm⟩,
            ⟨right_bot.ap, right_bot.ml, right_bot.dv - vert_mm⟩)⟩

/-- Euclidean distance between two points in the AP/ML plane. -/
noncomputable def distAPML (p q : Point3) : ℝ :=
  Real.sqrt ((p.ap - q.ap) ^ 2 + (p.ml - q.ml) ^ 2)

theorem _sind_neg (x : ℝ) : _sind (-x) = - _sind x := by
  unfold _sind
  rw [show (-x) * Real.pi / 180 = -(x * Real.pi / 180) by ring, Real.sin_neg]

theorem _cosd_neg (x : ℝ) : _cosd (-x) = _cosd x := by
  unfold _cosd
  rw [show (-x) * Real.pi / 180 = -(x * Real.pi / 180) by ring, Real.cos_neg]

/-! ## JSON values and the Python conversions used by `AtlasResponse.from_json` -/

/-- A parsed JSON value (the possible results of `r.json()` /
`json.loads`). -/
inductive JVal where
  | jnull : JVal
  | jbool : Bool → JVal
  | jnum : ℚ → JVal
  | jstr : String → JVal
  | jarr : List JVal → JVal
  | jobj : List (String × JVal) → JVal

/-- Python `d[k]` and `d.get(k)` on a JSON value: a lookup that succeeds
only on objects carrying the key (on anything else Python would raise,
which the callers treat as overall failure / falsy absence). -/
def jget (d : JVal) (k : String) : Option JVal :=
  match d with
  | .jobj kvs => kvs.lookup k
  | _ => none

/-- Python truthiness of a JSON value (`if d.get("error"):`). -/
def truthy : JVal → Bool
  | .jnull => false
  | .jbool b => b
  | .jnum q => decide (q ≠ 0)
  | .jstr s => decide (s ≠ "")
  | .jarr xs => !xs.isEmpty
  | .jobj kvs => !kvs.isEmpty

/-- Truncation toward zero, the behaviour of Python `int()` on a float. -/
def pyTrunc (q : ℚ) : ℤ := if q < 0 then ⌈q⌉ else ⌊q⌋

/-- Python `int(v)` on a JSON value: numbers truncate toward zero, bools
map to 0/1, strings go through integer-literal parsing, anything else
raises (`none`). -/
def pyInt : JVal → Option ℤ
  | .jnum q => some (pyTrunc q)
  | .jbool b => some (if b then 1 else 0)
  | .jstr s => s.toInt?
  | _ => none

/-- Python `str(v)` on a JSON value (total; the exact rendering of
non-string values is irrelevant to every claim). -/
def pyStr : JVal → String
  | .jnull => "None"
  | .jbool b => if b then "True" else "False"
  | .jnum q => toString q
  | .jstr s => s
  | .jarr _ => "[...]"
  | .jobj _ => "{...}"

/-! ## Mutable Pillow images as an explicit heap

A decoded image is a heap cell: the identity of the decoded source bytes
(`base`) plus the filled circles drawn on it so far, in drawing order.
Every circle the module draws is filled with the fixed colour
`(255, 0, 0)`, so a circle is recorded as its centre and radius
`(x, y, r)` — the source calls `draw.ellipse((x-r, y-r, x+r, y+r),
fill=(255, 0, 0))`. -/

/-- A drawn filled circle: centre x, centre y, radius (pixels). -/
abbrev MarkCircle := ℤ × ℤ × ℤ

/-- The value of one mutable image object. -/
structure ImgVal where
  base : Nat
  circles : List MarkCircle
deriving DecidableEq, Repr

instance : Inhabited ImgVal := ⟨⟨0, []⟩⟩

/-- The image heap: addresses are list indices. -/
abbrev Heap := List ImgVal

/-- `im.copy()`: allocate a fresh cell holding the same value; returns
the new heap and the fresh address. -/
def copyImg (h : Heap) (a : Nat) : Heap × Nat :=
  (h ++ [h.getD a default], h.length)

/-- `ImageDraw.Draw(im); draw.ellipse((x-r, y-r, x+r, y+r), fill=(255,0,0))`:
mutate the cell at `a` by appending one filled circle. -/
def drawCircle (h : Heap) (a : Nat) (x y r : ℤ) : Heap :=
  h.set a { h.getD a default with
            circles := (h.getD a default).circles ++ [(x, y, r)] }

/-- Draw a list of circles in order on the cell at `a`
(the `for (x, y, r) in multi_mark_horizontal` loop). -/
def drawCircles (h : Heap) (a : Nat) : List MarkCircle → Heap
  | [] => h
  | (x, y, r) :: rest => drawCircles (drawCircle h a x y r) a rest

/-! ## Low-level API structures (source lines 24-71) -/

/-- `PlaneInfo`: one plane of an atlas response.  The two image fields
hold heap addresses when present. -/
structure PlaneInfo where
  top : ℤ
  left : ℤ
  image_url : String
  image : Option Nat := none
  image_marked : Option Nat := none
deriving DecidableEq, Repr

/-- `AtlasResponse`: the three planes the API returns. -/
structure AtlasResponse where
  coronal : PlaneInfo
  sagittal : PlaneInfo
  horizontal : PlaneInfo
deriving DecidableEq, Repr

/-- The `_plane` helper inside `AtlasResponse.from_json`: extract one
plane object; any missing key or failed `int()` conversion raises
(`none`). -/
def planeOfJson (d : JVal) (key : String) : Option PlaneInfo :=
  match jget d key with
  | none => none
  | some p =>
    match jget p "top", jget p "left", jget p "image_url" with
    | some t, some l, some u =>
      match pyInt t, pyInt l with
      | some ti, some li =>
        some { top := ti, left := li, image_url := pyStr u }
      | _, _ => none
    | _, _, _ => none

/-- `AtlasResponse.from_json(d)`: build the three planes; any failure in
any plane propagates (`none`, modelling the raised KeyError etc.). -/
def AtlasResponse.from_json (d : JVal) : Option AtlasResponse :=
  match planeOfJson d "coronal", planeOfJson d "sagittal",
        planeOfJson d "horizontal" with
  | some c, some s, some hz => some ⟨c, s, hz⟩
  | _, _, _ => none

/-! ## External capabilities and state -/

/-- The atlas lookup errors `rat_brain_atlas` can raise.  `transport`
carries the constructed request URL (the message interpolates it) and
the underlying cause; `parse` carries the first 200 bytes of the raw
body; `remote` carries the truthy `error` field of the parsed body;
`structural` is the uncaught exception escaping
`AtlasResponse.from_json` when the parsed body lacks well-formed plane
objects. -/
inductive AtlasError where
  | transport : String → String → AtlasError
  | parse : List Nat → AtlasError
  | remote : JVal → AtlasError
  | structural : AtlasError

/-- The external capabilities of the module: number formatting inside
f-strings, the HTTP GET for metadata (`requests.get` +
`raise_for_status`, returning the raw body bytes or the raised
exception), the two JSON parsing strategies (`r.json()` fast path and
`json.loads(content.decode("utf-8", errors="replace"))` fallback), the
combined image fetch-and-decode `_read_image` (returning the identity
of the decoded content, or `none` on any failure), and the `_HAS_PIL`
flag. -/
structure Env where
  fmt : ℝ → String
  httpGet : String → Except String (List Nat)
  jsonFast : List Nat → Option JVal
  jsonFallback : List Nat → Option JVal
  readImage : String → Option Nat
  hasPIL : Bool

/-- Observable module state: the image heap and the chronological list
of metadata request URLs issued so far. -/
structure St where
  heap : Heap
  calls : List String

/-- `API_BASE` from the source. -/
def API_BASE : String := "http://labs.gaidi.ca/rat-brain-atlas/api.php"

/-- `atlas_url(ml, ap, dv)`: build the query URL for the atlas API. -/
def atlas_url (fmt : ℝ → String) (ml ap dv : ℝ) : String :=
  API_BASE ++ "?ml=" ++ fmt ml ++ "&ap=" ++ fmt ap ++ "&dv=" ++ fmt dv

/-! ## The slice lookup client `rat_brain_atlas` (source lines 99-146) -/

/-- `plane.image = _read_image(plane.image_url)` for one plane: on
success allocate the decoded image on the heap, on failure record
`none`. -/
def fetchPlane (env : Env) (h : Heap) (p : PlaneInfo) : Heap × PlaneInfo :=
  match env.readImage p.image_url with
  | none => (h, { p with image := none })
  | some cid => (h ++ [⟨cid, []⟩], { p with image := some h.length })

/-- The image-fetch loop over the three planes, in source order. -/
def fetchImages (env : Env) (h : Heap) (r : AtlasResponse) :
    Heap × AtlasResponse :=
  let s1 := fetchPlane env h r.coronal
  let s2 := fetchPlane env s1.1 r.sagittal
  let s3 := fetchPlane env s2.1 r.horizontal
  (s3.1, ⟨s1.2, s2.2, s3.2⟩)

/-- The default-marking step for one plane (source lines 138-144): if
the plane has a decoded image, copy it and draw one filled circle of
radius 10 at `(left, top)` on the copy. -/
def autoMarkPlane (h : Heap) (p : PlaneInfo) : Heap × PlaneInfo :=
  match p.image with
  | none => (h, p)
  | some a =>
    let c := copyImg h a
    (drawCircle c.1 c.2 p.left p.top 10, { p with image_marked := some c.2 })

/-- The default-marking loop over the three planes, in source order. -/
def autoMark (h : Heap) (r : AtlasResponse) : Heap × AtlasResponse :=
  let s1 := autoMarkPlane h r.coronal
  let s2 := autoMarkPlane s1.1 r.sagittal
  let s3 := autoMarkPlane s2.1 r.horizontal
  (s3.1, ⟨s1.2, s2.2, s3.2⟩)

/-- The success path of `rat_brain_atlas` after the metadata checks:
fetch the three plane images, then (when Pillow is present) add the
default radius-10 markers. -/
def lookupSuccess (env : Env) (h : Heap) (base : AtlasResponse) :
    Heap × AtlasResponse :=
  let f := fetchImages env h base
  if env.hasPIL then autoMark f.1 f.2 else f

/-- `rat_brain_atlas` from the point where a parsed body `d` is in hand
(source lines 124-146): check the application-level error field, build
the dataclasses, fetch and mark the images. -/
def afterParse (env : Env) (st : St) (d : JVal) :
    St × Except AtlasError AtlasResponse :=
  match jget d "error" with
  | some v =>
    if truthy v then (st, .error (.remote v))
    else
      match AtlasResponse.from_json d with
      | none => (st, .error .structural)
      | some base =>
        let r := lookupSuccess env st.heap base
        (⟨r.1, st.calls⟩, .ok r.2)
  | none =>
    match AtlasResponse.from_json d with
    | none => (st, .error .structural)
    | some base =>
      let r := lookupSuccess env st.heap base
      (⟨r.1, st.calls⟩, .ok r.2)

/-- `rat_brain_atlas(ml, ap, dv)` (source lines 99-146): build the URL,
issue the metadata request (logged in `calls`), parse the body via the
fast path then the fallback, and continue with `afterParse`. -/
def rat_brain_atlas (env : Env) (st : St) (ml ap dv : ℝ) :
    St × Except AtlasError AtlasResponse :=
  let url := atlas_url env.fmt ml ap dv
  let st1 : St := ⟨st.heap, st.calls ++ [url]⟩
  match env.httpGet url with
  | .error cause => (st1, .error (.transport url cause))
  | .ok body =>
    match env.jsonFast body with
    | some d => afterParse env st1 d
    | none =>
      match env.jsonFallback body with
      | some d => afterParse env st1 d
      | none => (st1, .error (.parse (body.take 200)))

/-- The error projection of an `Except` result. -/
def errOf : Except AtlasError AtlasResponse → Option AtlasError
  | .error e => some e
  | .ok _ => none

/-- The outcome of the checks `rat_brain_atlas` runs on a parsed body
`d`: the application-level error field, then the dataclass conversion. -/
def classifyDoc (d : JVal) : Option AtlasError :=
  match jget d "error" with
  | some v =>
    if truthy v then some (.remote v)
    else if (AtlasResponse.from_json d).isSome then none
    else some .structural
  | none =>
    if (AtlasResponse.from_json d).isSome then none
    else some .structural

/-- The metadata-level outcome of one lookup, as a function of the
environment alone (the heap and call log do not influence whether the
lookup raises, nor which error it raises). -/
def metaFails (env : Env) (ml ap dv : ℝ) : Option AtlasError :=
  let url := atlas_url env.fmt ml ap dv
  match env.httpGet url with
  | .error cause => some (.transport url cause)
  | .ok body =>
    match env.jsonFast body with
    | some d => classifyDoc d
    | none =>
      match env.jsonFallback body with
      | some d => classifyDoc d
      | none => some (.parse (body.take 200))

/-! ## Consolidation and the marker overlay engine (source lines 153-195) -/

/-- `CombinedAtlas`: the ordered group of slice bundles. -/
structure CombinedAtlas where
  entries : List AtlasResponse
deriving DecidableEq, Repr

/-- `_consolidate(Sleft, Scenter, Sright)`. -/
def _consolidate (Sleft Scenter Sright : AtlasResponse) : CombinedAtlas :=
  ⟨[Sleft, Scenter, Sright]⟩

/-- The coronal branch of the overlay loop body (source lines 177-182):
one marker at the entry's own `(left, top)`, drawn on a copy. -/
def markCoronal (h : Heap) (radius_px : ℤ) (p : PlaneInfo) :
    Heap × PlaneInfo :=
  match p.image with
  | none => (h, p)
  | some a =>
    let c := copyImg h a
    (drawCircle c.1 c.2 p.left p.top radius_px,
     { p with image_marked := some c.2 })

/-- The horizontal branch of the overlay loop body (source lines
184-194): with a truthy (non-empty) `multi_mark_horizontal` list draw
every listed circle, otherwise fall back to the single own-point
marker. -/
def markHorizontal (h : Heap) (radius_px : ℤ)
    (multi : Option (List MarkCircle)) (p : PlaneInfo) :
    Heap × PlaneInfo :=
  match p.image with
  | none => (h, p)
  | some a =>
    let c := copyImg h a
    match multi with
    | some (m :: ms) =>
      (drawCircles c.1 c.2 (m :: ms), { p with image_marked := some c.2 })
    | _ =>
      (drawCircle c.1 c.2 p.left p.top radius_px,
       { p with image_marked := some c.2 })

/-- One iteration of the overlay loop: coronal then horizontal (the
sagittal plane is untouched). -/
def markEntry (h : Heap) (radius_px : ℤ)
    (multi : Option (List MarkCircle)) (e : AtlasResponse) :
    Heap × AtlasResponse :=
  let s1 := markCoronal h radius_px e.coronal
  let s2 := markHorizontal s1.1 radius_px multi e.horizontal
  (s2.1, { e with coronal := s1.2, horizontal := s2.2 })

/-- The overlay loop over all entries of the group, in order. -/
def markEntries (h : Heap) (radius_px : ℤ)
    (multi : Option (List MarkCircle)) :
    List AtlasResponse → Heap × List AtlasResponse
  | [] => (h, [])
  | e :: es =>
    let s1 := markEntry h radius_px multi e
    let s2 := markEntries s1.1 radius_px multi es
    (s2.1, s1.2 :: s2.2)

/-- `_insert_markers_on_planes(atlas_struct, radius_px,
multi_mark_horizontal)` (source lines 162-195): a no-op without Pillow,
otherwise the overlay loop. -/
def _insert_markers_on_planes (env : Env) (h : Heap)
    (atlas_struct : CombinedAtlas) (radius_px : ℤ)
    (multi : Option (List MarkCircle)) : Heap × CombinedAtlas :=
  if env.hasPIL then
    let s := markEntries h radius_px multi atlas_struct.entries
    (s.1, ⟨s.2⟩)
  else (h, atlas_struct)

/-! ## The planning function `plot_implant_coords` (source lines 205-317) -/

/-- The `S_at(coords)` helper (source lines 248-250): unpack the stored
`(AP, ML, DV)` point and call `rat_brain_atlas(ml=ml, ap=ap, dv=dv)`. -/
def S_at (env : Env) (st : St) (coords : Point3) :
    St × Except AtlasError AtlasResponse :=
  rat_brain_atlas env st coords.ml coords.ap coords.dv

/-- The shared horizontal marker triplet built from three bundles
(source lines 260-264 and 275-279). -/
def horizTriplet (sl sc sr : AtlasResponse) (plot_radius : ℤ) :
    List MarkCircle :=
  [(sl.horizontal.left, sl.horizontal.top, plot_radius),
   (sc.horizontal.left, sc.horizontal.top, plot_radius),
   (sr.horizontal.left, sr.horizontal.top, plot_radius)]

/-- The lookup-and-marking phase of `plot_implant_coords` (source lines
247-280), over an already derived `Targets` record: the lookups are
issued sequentially (left, center, right, then optionally top left, top
center, top right); the first metadata-level failure propagates and
ends the call. -/
def plotLookups (env : Env) (st : St) (t : Targets) (plot_radius : ℤ) :
    St × Except AtlasError (CombinedAtlas × Option CombinedAtlas) :=
  match S_at env st t.left_bot with
  | (st1, .error e) => (st1, .error e)
  | (st1, .ok sLeft) =>
    match S_at env st1 t.center_bot with
    | (st2, .error e) => (st2, .error e)
    | (st2, .ok sCenter) =>
      match S_at env st2 t.right_bot with
      | (st3, .error e) => (st3, .error e)
      | (st3, .ok sRight) =>
        let comb := _consolidate sLeft sCenter sRight
        let mb := _insert_markers_on_planes env st3.heap comb
          plot_radius (some (horizTriplet sLeft sCenter sRight plot_radius))
        let st4 : St := ⟨mb.1, st3.calls⟩
        match t.tops with
        | none => (st4, .ok (mb.2, none))
        | some (ct, lt, rt) =>
          match S_at env st4 lt with
          | (st5, .error e) => (st5, .error e)
          | (st5, .ok sLeftT) =>
            match S_at env st5 ct with
            | (st6, .error e) => (st6, .error e)
            | (st6, .ok sCenterT) =>
              match S_at env st6 rt with
              | (st7, .error e) => (st7, .error e)
              | (st7, .ok sRightT) =>
                let combT := _consolidate sLeftT sCenterT sRightT
                let mt := _insert_markers_on_planes env st7.heap
                  combT plot_radius
                  (some (horizTriplet sLeftT sCenterT sRightT plot_radius))
                (⟨mt.1, st7.calls⟩, .ok (mb.2, some mt.2))

/-- `plot_implant_coords(AP, ML, DV, angle, span, skull_t, vert_span,
plot_radius)` (source lines 205-317), stopping at the returned pair
`(s_comb_bot, s_comb_top)` — the trailing matplotlib display code reads
the structures but does not change them: derive the targets, then run
the sequential lookup-and-marking phase. -/
noncomputable def plot_implant_coords (env : Env) (st : St)
    (AP ML DV angle : ℝ) (span skull_t : ℝ) (vert_span : Option ℝ)
    (plot_radius : ℤ) :
    St × Except AtlasError (CombinedAtlas × Option CombinedAtlas) :=
  plotLookups env st (deriveTargets AP ML DV angle span skull_t vert_span)
    plot_radius

/-- The metadata requests a sequential sweep over `pts` would issue, and
the first metadata-level failure (if any): every point up to and
including the first failing one contributes its URL, nothing after it
is attempted. -/
def firstFailure (env : Env) : List Point3 → List String × Option AtlasError
  | [] => ([], none)
  | c :: rest =>
    match metaFails env c.ml c.ap c.dv with
    | some e => ([atlas_url env.fmt c.ml c.ap c.dv], some e)
    | none =>
      (atlas_url env.fmt c.ml c.ap c.dv :: (firstFailure env rest).1,
       (firstFailure env rest).2)

/-! ## Geometry lemmas -/

theorem _sind_ninety : _sind 90 = 1 := by
  unfold _sind
  rw [show (90 : ℝ) * Real.pi / 180 = Real.pi / 2 by ring, Real.sin_pi_div_two]

theorem _sind_sq_add_cosd_sq (x : ℝ) : _sind x ^ 2 + _cosd x ^ 2 = 1 :=
  Real.sin_sq_add_cos_sq _

/-- C1: the claim as stated is false on the code.  At base (0, 0, 0),
angle 90°, span 1000 µm and skull 0 µm, the claimed AP coordinate of
`left_bot` is `0 - sin(90°) · s = -1/2`, but the code negates the angle
before the trig call (`_sind(-angle)`) and produces `+1/2`. -/
theorem c1_counterexample :
    (deriveTargets 0 0 0 90 1000 0 none).left_bot.ap ≠
      0 - _sind 90 * (1000 / 1000 / 2) := by
  simp only [deriveTargets, _sind_neg, _sind_ninety]
  norm_num

/-- C1 (amended): the code negates the angle before the trig functions,
so with s = span_um/1000/2 and skull_mm = skull_um/1000 the produced
points are `left_bot = (AP + sin(angle_deg)·s, ML - cos(angle_deg)·s,
DV + skull_mm)` and `right_bot = (AP - sin(angle_deg)·s,
ML + cos(angle_deg)·s, DV + skull_mm)` — the sine (AP) component has
the opposite sign from the claim, the cosine (ML) component agrees
because cosine is even. -/
theorem c1_amended (AP ML DV angle span skull_t : ℝ) (vert_span : Option ℝ) :
    (deriveTargets AP ML DV angle span skull_t vert_span).left_bot.ap
        = AP + _sind angle * (span / 1000 / 2) ∧
      (deriveTargets AP ML DV angle span skull_t vert_span).left_bot.ml
        = ML - _cosd angle * (span / 1000 / 2) ∧
      (deriveTargets AP ML DV angle span skull_t vert_span).left_bot.dv
        = DV + skull_t / 1000 ∧
      (deriveTargets AP ML DV angle span skull_t vert_span).right_bot.ap
        = AP - _sind angle * (span / 1000 / 2) ∧
      (deriveTargets AP ML DV angle span skull_t vert_span).right_bot.ml
        = ML + _cosd angle * (span / 1000 / 2) ∧
      (deriveTargets AP ML DV angle span skull_t vert_span).right_bot.dv
        = DV + skull_t / 1000 := by
  cases vert_span <;>
    simp only [deriveTargets, _sind_neg, _cosd_neg] <;>
    exact ⟨by ring, by ring, by norm_num, by ring, by ring, by norm_num⟩

/-- C2: the depth parameter is a genuine tri-state.  With the
not-requested sentinel (`none`, embedding the NaN sentinel) no top
triplet is produced; with any provided depth `d` the top points equal
the bottom points with DV decreased by `d/1000`; with depth exactly 0
the top triplet is present and identical to the bottom triplet. -/
theorem c2_tri_state (AP ML DV angle span skull_t : ℝ) :
    (deriveTargets AP ML DV angle span skull_t none).tops = none ∧
      (∀ d : ℝ,
        (deriveTargets AP ML DV angle span skull_t (some d)).tops =
          some
            (⟨(deriveTargets AP ML DV angle span skull_t (some d)).center_bot.ap,
              (deriveTargets AP ML DV angle span skull_t (some d)).center_bot.ml,
              (deriveTargets AP ML DV angle span skull_t (some d)).center_bot.dv
                - d / 1000⟩,
             ⟨(deriveTargets AP ML DV angle span skull_t (some d)).left_bot.ap,
              (deriveTargets AP ML DV angle span skull_t (some d)).left_bot.ml,
              (deriveTargets AP ML DV angle span skull_t (some d)).left_bot.dv
                - d / 1000⟩,
             ⟨(deriveTargets AP ML DV angle span skull_t (some d)).right_bot.ap,
              (deriveTargets AP ML DV angle span skull_t (some d)).right_bot.ml,
              (deriveTargets AP ML DV angle span skull_t (some d)).right_bot.dv
                - d / 1000⟩)) ∧
      (deriveTargets AP ML DV angle span skull_t (some 0)).tops =
        some ((deriveTargets AP ML DV angle span skull_t (some 0)).center_bot,
              (deriveTargets AP ML DV angle span skull_t (some 0)).left_bot,
              (deriveTargets AP ML DV angle span skull_t (some 0)).right_bot) := by
  refine ⟨rfl, fun d => rfl, ?_⟩
  simp only [deriveTargets]
  norm_num

/-- C9: the claim as stated is false for negative spans.  At angle 0 and
span -1000 µm the claimed distance `span_um/2000` is negative, but a
Euclidean distance never is (the code places `left_bot` at AP/ML
distance 1/2 mm from `center_bot` there). -/
theorem c9_counterexample :
    distAPML (deriveTargets 0 0 0 0 (-1000) 0 none).left_bot
        (deriveTargets 0 0 0 0 (-1000) 0 none).center_bot ≠
      (-1000) / 2000 := by
  intro heq
  have h : (0 : ℝ) ≤ distAPML (deriveTargets 0 0 0 0 (-1000) 0 none).left_bot
      (deriveTargets 0 0 0 0 (-1000) 0 none).center_bot := Real.sqrt_nonneg _
  rw [heq] at h
  norm_num at h

theorem dist_helper_abs (s u v : ℝ) (h1 : u ^ 2 + v ^ 2 = 1) :
    Real.sqrt ((u * s) ^ 2 + (v * s) ^ 2) = |s| := by
  rw [show (u * s) ^ 2 + (v * s) ^ 2 = s ^ 2 * (u ^ 2 + v ^ 2) from by ring,
    h1, mul_one, Real.sqrt_sq_eq_abs]

/-- C9 (amended): for every angle and every span_um, `left_bot` and
`right_bot` are each at Euclidean AP/ML distance exactly
`|span_um|/2000` mm from `center_bot` — which equals `span_um/2000`
whenever span_um is nonnegative — and, for every span, they are
reflections of each other through `center_bot` componentwise. -/
theorem c9_amended (AP ML DV angle span skull_t : ℝ)
    (vert_span : Option ℝ) :
    distAPML (deriveTargets AP ML DV angle span skull_t vert_span).left_bot
        (deriveTargets AP ML DV angle span skull_t vert_span).center_bot
      = |span| / 2000 ∧
    distAPML (deriveTargets AP ML DV angle span skull_t vert_span).right_bot
        (deriveTargets AP ML DV angle span skull_t vert_span).center_bot
      = |span| / 2000 ∧
    (0 ≤ span →
      distAPML
          (deriveTargets AP ML DV angle span skull_t vert_span).left_bot
          (deriveTargets AP ML DV angle span skull_t vert_span).center_bot
        = span / 2000 ∧
      distAPML
          (deriveTargets AP ML DV angle span skull_t vert_span).right_bot
          (deriveTargets AP ML DV angle span skull_t vert_span).center_bot
        = span / 2000) ∧
    (deriveTargets AP ML DV angle span skull_t vert_span).left_bot.ap +
        (deriveTargets AP ML DV angle span skull_t vert_span).right_bot.ap
      = 2 * (deriveTargets AP ML DV angle span skull_t
          vert_span).center_bot.ap ∧
    (deriveTargets AP ML DV angle span skull_t vert_span).left_bot.ml +
        (deriveTargets AP ML DV angle span skull_t vert_span).right_bot.ml
      = 2 * (deriveTargets AP ML DV angle span skull_t
          vert_span).center_bot.ml ∧
    (deriveTargets AP ML DV angle span skull_t vert_span).left_bot.dv +
        (deriveTargets AP ML DV angle span skull_t vert_span).right_bot.dv
      = 2 * (deriveTargets AP ML DV angle span skull_t
          vert_span).center_bot.dv := by
  have habs : |span / 2000| = |span| / 2000 := by
    rw [abs_div]
    norm_num
  cases vert_span <;>
    · simp only [deriveTargets, distAPML]
      have h1 : Real.sqrt
          ((AP - _sind (-angle) * (span / 1000) / 2 - AP) ^ 2 +
            (ML - _cosd (-angle) * (span / 1000) / 2 - ML) ^ 2) =
          |span| / 2000 := by
        rw [show (AP - _sind (-angle) * (span / 1000) / 2 - AP) ^ 2 +
              (ML - _cosd (-angle) * (span / 1000) / 2 - ML) ^ 2 =
              (_sind (-angle) * (span / 2000)) ^ 2 +
                (_cosd (-angle) * (span / 2000)) ^ 2 from by ring,
          dist_helper_abs _ _ _ (_sind_sq_add_cosd_sq _), habs]
      have h2 : Real.sqrt
          ((AP + _sind (-angle) * (span / 1000) / 2 - AP) ^ 2 +
            (ML + _cosd (-angle) * (span / 1000) / 2 - ML) ^ 2) =
          |span| / 2000 := by
        rw [show (AP + _sind (-angle) * (span / 1000) / 2 - AP) ^ 2 +
              (ML + _cosd (-angle) * (span / 1000) / 2 - ML) ^ 2 =
              (_sind (-angle) * (span / 2000)) ^ 2 +
                (_cosd (-angle) * (span / 2000)) ^ 2 from by ring,
          dist_helper_abs _ _ _ (_sind_sq_add_cosd_sq _), habs]
      refine ⟨h1, h2, fun hs => ⟨?_, ?_⟩, by ring, by ring, by ring⟩
      · rw [h1, abs_of_nonneg hs]
      · rw [h2, abs_of_nonneg hs]

/-- Witness for `c9_amended` at base (1, 2, 3), angle 0, span 2000 µm:
the inner nonnegativity hypothesis is discharged concretely. -/
theorem c9_witness :
    (0 : ℝ) ≤ 2000 ∧
    (distAPML (deriveTargets 1 2 3 0 2000 0 none).left_bot
        (deriveTargets 1 2 3 0 2000 0 none).center_bot
      = 2000 / 2000 ∧
    distAPML (deriveTargets 1 2 3 0 2000 0 none).right_bot
        (deriveTargets 1 2 3 0 2000 0 none).center_bot
      = 2000 / 2000) :=
  ⟨by norm_num, (c9_amended 1 2 3 0 2000 0 none).2.2.1 (by norm_num)⟩

/-! ## Heap lemmas -/

theorem heapGetD_append (h : Heap) (vs : List ImgVal) (b : Nat)
    (hb : b < h.length) : (h ++ vs).getD b default = h.getD b default :=
  List.getD_append _ _ _ _ hb

theorem heapGetD_snoc_self (h : Heap) (v : ImgVal) :
    (h ++ [v]).getD h.length default = v := by
  rw [List.getD_append_right _ _ _ _ (Nat.le_refl _), Nat.sub_self]
  rfl

theorem heapGetD_set_self (h : Heap) (a : Nat) (v : ImgVal)
    (ha : a < h.length) : (h.set a v).getD a default = v := by
  rw [List.getD_eq_getElem?_getD, List.getElem?_set_self ha, Option.getD_some]

theorem heapGetD_set_ne (h : Heap) (a b : Nat) (v : ImgVal)
    (hne : a ≠ b) : (h.set a v).getD b default = h.getD b default := by
  rw [List.getD_eq_getElem?_getD, List.getElem?_set_ne hne,
    ← List.getD_eq_getElem?_getD]

/-- One heap evolved from another by allocating fresh cells and writing
only to fresh cells: every pre-existing cell keeps its value. -/
def HeapExtends (h h2 : Heap) : Prop :=
  h.length ≤ h2.length ∧ ∀ b < h.length, h2.getD b default = h.getD b default

theorem HeapExtends.refl (h : Heap) : HeapExtends h h :=
  ⟨Nat.le_refl _, fun _ _ => rfl⟩

theorem HeapExtends.trans {h1 h2 h3 : Heap} (a : HeapExtends h1 h2)
    (b : HeapExtends h2 h3) : HeapExtends h1 h3 :=
  ⟨Nat.le_trans a.1 b.1, fun i hi =>
    (b.2 i (Nat.lt_of_lt_of_le hi a.1)).trans (a.2 i hi)⟩

theorem drawCircle_length (h : Heap) (a : Nat) (x y r : ℤ) :
    (drawCircle h a x y r).length = h.length :=
  List.length_set ..

theorem drawCircle_getD_ne (h : Heap) (a b : Nat) (x y r : ℤ)
    (hne : a ≠ b) :
    (drawCircle h a x y r).getD b default = h.getD b default :=
  heapGetD_set_ne _ _ _ _ hne

theorem drawCircle_getD_self (h : Heap) (a : Nat) (x y r : ℤ)
    (ha : a < h.length) :
    (drawCircle h a x y r).getD a default =
      ⟨(h.getD a default).base, (h.getD a default).circles ++ [(x, y, r)]⟩ :=
  heapGetD_set_self _ _ _ ha

theorem drawCircles_length (h : Heap) (a : Nat) (cs : List MarkCircle) :
    (drawCircles h a cs).length = h.length := by
  induction cs generalizing h with
  | nil => rfl
  | cons c rest ih =>
    obtain ⟨x, y, r⟩ := c
    rw [drawCircles, ih, drawCircle_length]

theorem drawCircles_getD_ne (h : Heap) (a b : Nat) (cs : List MarkCircle)
    (hne : a ≠ b) :
    (drawCircles h a cs).getD b default = h.getD b default := by
  induction cs generalizing h with
  | nil => rfl
  | cons c rest ih =>
    obtain ⟨x, y, r⟩ := c
    rw [drawCircles, ih, drawCircle_getD_ne _ _ _ _ _ _ hne]

theorem drawCircles_getD_self (h : Heap) (a : Nat) (cs : List MarkCircle)
    (ha : a < h.length) :
    (drawCircles h a cs).getD a default =
      ⟨(h.getD a default).base, (h.getD a default).circles ++ cs⟩ := by
  induction cs generalizing h with
  | nil =>
    rw [drawCircles, List.append_nil]
  | cons c rest ih =>
    obtain ⟨x, y, r⟩ := c
    rw [drawCircles, ih _ (by rw [drawCircle_length]; exact ha),
      drawCircle_getD_self _ _ _ _ _ ha]
    simp

theorem HeapExtends.preserve {h h2 : Heap} (e : HeapExtends h h2) {a : Nat}
    {v : ImgVal} (ha : a < h.length) (hv : h.getD a default = v) :
    a < h2.length ∧ h2.getD a default = v :=
  ⟨Nat.lt_of_lt_of_le ha e.1, (e.2 a ha).trans hv⟩

theorem heapExtends_snoc (h : Heap) (v : ImgVal) : HeapExtends h (h ++ [v]) :=
  ⟨by simp, fun b hb => heapGetD_append _ _ _ hb⟩

/-! ### fetchPlane lemmas -/

theorem fetchPlane_none (env : Env) (h : Heap) (p : PlaneInfo)
    (hp : env.readImage p.image_url = none) :
    fetchPlane env h p = (h, { p with image := none }) := by
  simp [fetchPlane, hp]

theorem fetchPlane_some (env : Env) (h : Heap) (p : PlaneInfo) (cid : Nat)
    (hp : env.readImage p.image_url = some cid) :
    fetchPlane env h p =
      (h ++ [⟨cid, []⟩], { p with image := some h.length }) := by
  simp [fetchPlane, hp]

theorem fetchPlane_extends (env : Env) (h : Heap) (p : PlaneInfo) :
    HeapExtends h (fetchPlane env h p).1 := by
  cases hp : env.readImage p.image_url with
  | none => rw [fetchPlane_none _ _ _ hp]; exact HeapExtends.refl h
  | some cid => rw [fetchPlane_some _ _ _ _ hp]; exact heapExtends_snoc _ _

theorem fetchPlane_keeps (env : Env) (h : Heap) (p : PlaneInfo) :
    (fetchPlane env h p).2.top = p.top ∧
    (fetchPlane env h p).2.left = p.left ∧
    (fetchPlane env h p).2.image_url = p.image_url ∧
    (fetchPlane env h p).2.image_marked = p.image_marked := by
  cases hp : env.readImage p.image_url with
  | none => rw [fetchPlane_none _ _ _ hp]; exact ⟨rfl, rfl, rfl, rfl⟩
  | some cid => rw [fetchPlane_some _ _ _ _ hp]; exact ⟨rfl, rfl, rfl, rfl⟩

/-! ### Copy-then-draw lemmas (the three marking branches) -/

theorem autoMarkPlane_none (h : Heap) (p : PlaneInfo) (hp : p.image = none) :
    autoMarkPlane h p = (h, p) := by
  simp [autoMarkPlane, hp]

theorem autoMarkPlane_some (h : Heap) (p : PlaneInfo) (a : Nat)
    (hp : p.image = some a) :
    (autoMarkPlane h p).2 = { p with image_marked := some h.length } ∧
    HeapExtends h (autoMarkPlane h p).1 ∧
    h.length < (autoMarkPlane h p).1.length ∧
    (autoMarkPlane h p).1.getD h.length default =
      ⟨(h.getD a default).base,
       (h.getD a default).circles ++ [(p.left, p.top, 10)]⟩ := by
  have heq : autoMarkPlane h p =
      (drawCircle (h ++ [h.getD a default]) h.length p.left p.top 10,
       { p with image_marked := some h.length }) := by
    simp [autoMarkPlane, hp, copyImg]
  rw [heq]
  have hlen : h.length < (h ++ [h.getD a default]).length := by simp
  refine ⟨rfl, ?_, ?_, ?_⟩
  · exact ⟨by rw [drawCircle_length]; simp,
      fun b hb => by
        rw [drawCircle_getD_ne _ _ _ _ _ _ (Nat.ne_of_gt hb),
          heapGetD_append _ _ _ hb]⟩
  · rw [drawCircle_length]; simp
  · rw [drawCircle_getD_self _ _ _ _ _ hlen, heapGetD_snoc_self]

theorem markCoronal_none (h : Heap) (r : ℤ) (p : PlaneInfo)
    (hp : p.image = none) : markCoronal h r p = (h, p) := by
  simp [markCoronal, hp]

theorem markCoronal_some (h : Heap) (r : ℤ) (p : PlaneInfo) (a : Nat)
    (hp : p.image = some a) :
    (markCoronal h r p).2 = { p with image_marked := some h.length } ∧
    HeapExtends h (markCoronal h r p).1 ∧
    h.length < (markCoronal h r p).1.length ∧
    (markCoronal h r p).1.getD h.length default =
      ⟨(h.getD a default).base,
       (h.getD a default).circles ++ [(p.left, p.top, r)]⟩ := by
  have heq : markCoronal h r p =
      (drawCircle (h ++ [h.getD a default]) h.length p.left p.top r,
       { p with image_marked := some h.length }) := by
    simp [markCoronal, hp, copyImg]
  rw [heq]
  have hlen : h.length < (h ++ [h.getD a default]).length := by simp
  refine ⟨rfl, ?_, ?_, ?_⟩
  · exact ⟨by rw [drawCircle_length]; simp,
      fun b hb => by
        rw [drawCircle_getD_ne _ _ _ _ _ _ (Nat.ne_of_gt hb),
          heapGetD_append _ _ _ hb]⟩
  · rw [drawCircle_length]; simp
  · rw [drawCircle_getD_self _ _ _ _ _ hlen, heapGetD_snoc_self]

theorem markHorizontal_none (h : Heap) (r : ℤ)
    (multi : Option (List MarkCircle)) (p : PlaneInfo) (hp : p.image = none) :
    markHorizontal h r multi p = (h, p) := by
  simp [markHorizontal, hp]

theorem markHorizontal_multi (h : Heap) (r : ℤ) (m : MarkCircle)
    (ms : List MarkCircle) (p : PlaneInfo) (a : Nat) (hp : p.image = some a) :
    (markHorizontal h r (some (m :: ms)) p).2 =
      { p with image_marked := some h.length } ∧
    HeapExtends h (markHorizontal h r (some (m :: ms)) p).1 ∧
    h.length < (markHorizontal h r (some (m :: ms)) p).1.length ∧
    (markHorizontal h r (some (m :: ms)) p).1.getD h.length default =
      ⟨(h.getD a default).base,
       (h.getD a default).circles ++ (m :: ms)⟩ := by
  have heq : markHorizontal h r (some (m :: ms)) p =
      (drawCircles (h ++ [h.getD a default]) h.length (m :: ms),
       { p with image_marked := some h.length }) := by
    simp [markHorizontal, hp, copyImg]
  rw [heq]
  have hlen : h.length < (h ++ [h.getD a default]).length := by simp
  refine ⟨rfl, ?_, ?_, ?_⟩
  · exact ⟨by rw [drawCircles_length]; simp,
      fun b hb => by
        rw [drawCircles_getD_ne _ _ _ _ (Nat.ne_of_gt hb),
          heapGetD_append _ _ _ hb]⟩
  · rw [drawCircles_length]; simp
  · rw [drawCircles_getD_self _ _ _ hlen, heapGetD_snoc_self]

theorem markHorizontal_single (h : Heap) (r : ℤ)
    (multi : Option (List MarkCircle)) (p : PlaneInfo) (a : Nat)
    (hp : p.image = some a) (hm : multi = none ∨ multi = some []) :
    (markHorizontal h r multi p).2 =
      { p with image_marked := some h.length } ∧
    HeapExtends h (markHorizontal h r multi p).1 ∧
    h.length < (markHorizontal h r multi p).1.length ∧
    (markHorizontal h r multi p).1.getD h.length default =
      ⟨(h.getD a default).base,
       (h.getD a default).circles ++ [(p.left, p.top, r)]⟩ := by
  have hlen : h.length < (h ++ [h.getD a default]).length := by simp
  have hgoal :
      markHorizontal h r multi p =
        (drawCircle (h ++ [h.getD a default]) h.length p.left p.top r,
         { p with image_marked := some h.length }) := by
    rcases hm with hm | hm <;> subst hm <;> simp [markHorizontal, hp, copyImg]
  rw [hgoal]
  refine ⟨rfl, ?_, ?_, ?_⟩
  · exact ⟨by rw [drawCircle_length]; simp,
      fun b hb => by
        rw [drawCircle_getD_ne _ _ _ _ _ _ (Nat.ne_of_gt hb),
          heapGetD_append _ _ _ hb]⟩
  · rw [drawCircle_length]; simp
  · rw [drawCircle_getD_self _ _ _ _ _ hlen, heapGetD_snoc_self]

theorem markHorizontal_keeps (h : Heap) (r : ℤ)
    (multi : Option (List MarkCircle)) (p : PlaneInfo) :
    (markHorizontal h r multi p).2.top = p.top ∧
    (markHorizontal h r multi p).2.left = p.left ∧
    (markHorizontal h r multi p).2.image_url = p.image_url ∧
    (markHorizontal h r multi p).2.image = p.image ∧
    HeapExtends h (markHorizontal h r multi p).1 := by
  cases hp : p.image with
  | none =>
    rw [markHorizontal_none _ _ _ _ hp]
    exact ⟨rfl, rfl, rfl, hp ▸ rfl, HeapExtends.refl h⟩
  | some a =>
    match multi with
    | some (m :: ms) =>
      obtain ⟨h2, he, _, _⟩ := markHorizontal_multi h r m ms p a hp
      rw [h2]
      exact ⟨rfl, rfl, rfl, hp ▸ rfl, he⟩
    | none =>
      obtain ⟨h2, he, _, _⟩ := markHorizontal_single h r none p a hp (Or.inl rfl)
      rw [h2]
      exact ⟨rfl, rfl, rfl, hp ▸ rfl, he⟩
    | some [] =>
      obtain ⟨h2, he, _, _⟩ :=
        markHorizontal_single h r (some []) p a hp (Or.inr rfl)
      rw [h2]
      exact ⟨rfl, rfl, rfl, hp ▸ rfl, he⟩

theorem markCoronal_keeps (h : Heap) (r : ℤ) (p : PlaneInfo) :
    (markCoronal h r p).2.top = p.top ∧
    (markCoronal h r p).2.left = p.left ∧
    (markCoronal h r p).2.image_url = p.image_url ∧
    (markCoronal h r p).2.image = p.image ∧
    HeapExtends h (markCoronal h r p).1 := by
  cases hp : p.image with
  | none =>
    rw [markCoronal_none _ _ _ hp]
    exact ⟨rfl, rfl, rfl, hp ▸ rfl, HeapExtends.refl h⟩
  | some a =>
    obtain ⟨h2, he, _, _⟩ := markCoronal_some h r p a hp
    rw [h2]
    exact ⟨rfl, rfl, rfl, hp ▸ rfl, he⟩

theorem autoMarkPlane_keeps (h : Heap) (p : PlaneInfo) :
    (autoMarkPlane h p).2.top = p.top ∧
    (autoMarkPlane h p).2.left = p.left ∧
    (autoMarkPlane h p).2.image_url = p.image_url ∧
    (autoMarkPlane h p).2.image = p.image ∧
    HeapExtends h (autoMarkPlane h p).1 := by
  cases hp : p.image with
  | none =>
    rw [autoMarkPlane_none _ _ hp]
    exact ⟨rfl, rfl, rfl, hp ▸ rfl, HeapExtends.refl h⟩
  | some a =>
    obtain ⟨h2, he, _, _⟩ := autoMarkPlane_some h p a hp
    rw [h2]
    exact ⟨rfl, rfl, rfl, hp ▸ rfl, he⟩

/-! ### Unfolding lemmas for the lookup pipeline -/

theorem fetchImages_def (env : Env) (h : Heap) (r : AtlasResponse) :
    fetchImages env h r =
      ((fetchPlane env (fetchPlane env (fetchPlane env h r.coronal).1
          r.sagittal).1 r.horizontal).1,
       ⟨(fetchPlane env h r.coronal).2,
        (fetchPlane env (fetchPlane env h r.coronal).1 r.sagittal).2,
        (fetchPlane env (fetchPlane env (fetchPlane env h r.coronal).1
          r.sagittal).1 r.horizontal).2⟩) := rfl

theorem autoMark_def (h : Heap) (r : AtlasResponse) :
    autoMark h r =
      ((autoMarkPlane (autoMarkPlane (autoMarkPlane h r.coronal).1
          r.sagittal).1 r.horizontal).1,
       ⟨(autoMarkPlane h r.coronal).2,
        (autoMarkPlane (autoMarkPlane h r.coronal).1 r.sagittal).2,
        (autoMarkPlane (autoMarkPlane (autoMarkPlane h r.coronal).1
          r.sagittal).1 r.horizontal).2⟩) := rfl

theorem lookupSuccess_def (env : Env) (h : Heap) (base : AtlasResponse) :
    lookupSuccess env h base =
      if env.hasPIL then
        autoMark (fetchImages env h base).1 (fetchImages env h base).2
      else fetchImages env h base := rfl

/-! ### afterParse lemmas -/

theorem afterParse_classify_some (env : Env) (st : St) (d : JVal)
    (e : AtlasError) (h : classifyDoc d = some e) :
    afterParse env st d = (st, .error e) := by
  unfold classifyDoc at h
  unfold afterParse
  cases hje : jget d "error" with
  | none =>
    simp only [hje] at h ⊢
    cases hfj : AtlasResponse.from_json d with
    | none =>
      simp only [hfj, Option.isSome_none, Bool.false_eq_true, if_false] at h ⊢
      cases h
      rfl
    | some base =>
      simp only [hfj, Option.isSome_some, if_true] at h
      exact Option.noConfusion h
  | some v =>
    simp only [hje] at h ⊢
    by_cases htr : truthy v = true
    · rw [if_pos htr] at h ⊢
      cases h
      rfl
    · rw [if_neg htr] at h ⊢
      cases hfj : AtlasResponse.from_json d with
      | none =>
        simp only [hfj, Option.isSome_none, Bool.false_eq_true, if_false]
          at h ⊢
        cases h
        rfl
      | some base =>
        simp only [hfj, Option.isSome_some, if_true] at h
        exact Option.noConfusion h

theorem afterParse_classify_none (env : Env) (st : St) (d : JVal)
    (h : classifyDoc d = none) :
    ∃ base, AtlasResponse.from_json d = some base ∧
      afterParse env st d =
        (⟨(lookupSuccess env st.heap base).1, st.calls⟩,
         .ok (lookupSuccess env st.heap base).2) := by
  unfold classifyDoc at h
  unfold afterParse
  cases hje : jget d "error" with
  | none =>
    simp only [hje] at h ⊢
    cases hfj : AtlasResponse.from_json d with
    | none =>
      simp only [hfj, Option.isSome_none, Bool.false_eq_true, if_false] at h
      exact Option.noConfusion h
    | some base => exact ⟨base, rfl, by simp only [hfj]⟩
  | some v =>
    simp only [hje] at h ⊢
    by_cases htr : truthy v = true
    · rw [if_pos htr] at h
      cases h
    · rw [if_neg htr] at h ⊢
      cases hfj : AtlasResponse.from_json d with
      | none =>
        simp only [hfj, Option.isSome_none, Bool.false_eq_true, if_false] at h
        exact Option.noConfusion h
      | some base => exact ⟨base, rfl, by simp only [hfj]⟩

theorem afterParse_calls (env : Env) (st : St) (d : JVal) :
    (afterParse env st d).1.calls = st.calls := by
  cases hc : classifyDoc d with
  | some e => rw [afterParse_classify_some env st d e hc]
  | none =>
    obtain ⟨base, _, hrun⟩ := afterParse_classify_none env st d hc
    rw [hrun]

/-! ### rat_brain_atlas master lemmas -/

theorem rat_brain_atlas_calls (env : Env) (st : St) (ml ap dv : ℝ) :
    (rat_brain_atlas env st ml ap dv).1.calls =
      st.calls ++ [atlas_url env.fmt ml ap dv] := by
  unfold rat_brain_atlas
  cases hhttp : env.httpGet (atlas_url env.fmt ml ap dv) with
  | error cause => simp only [hhttp]
  | ok body =>
    cases hfast : env.jsonFast body with
    | some d =>
      simp only [hhttp, hfast]
      exact afterParse_calls env ⟨st.heap, st.calls ++ [atlas_url env.fmt ml ap dv]⟩ d
    | none =>
      cases hfb : env.jsonFallback body with
      | some d =>
        simp only [hhttp, hfast, hfb]
        exact afterParse_calls env
          ⟨st.heap, st.calls ++ [atlas_url env.fmt ml ap dv]⟩ d
      | none => simp only [hhttp, hfast, hfb]

theorem rat_brain_atlas_err (env : Env) (st : St) (ml ap dv : ℝ)
    (e : AtlasError) (h : metaFails env ml ap dv = some e) :
    rat_brain_atlas env st ml ap dv =
      (⟨st.heap, st.calls ++ [atlas_url env.fmt ml ap dv]⟩, .error e) := by
  unfold metaFails at h
  unfold rat_brain_atlas
  cases hhttp : env.httpGet (atlas_url env.fmt ml ap dv) with
  | error cause =>
    simp only [hhttp] at h ⊢
    cases h
    rfl
  | ok body =>
    cases hfast : env.jsonFast body with
    | some d =>
      simp only [hhttp, hfast] at h ⊢
      exact afterParse_classify_some env _ d e h
    | none =>
      cases hfb : env.jsonFallback body with
      | some d =>
        simp only [hhttp, hfast, hfb] at h ⊢
        exact afterParse_classify_some env _ d e h
      | none =>
        simp only [hhttp, hfast, hfb] at h ⊢
        cases h
        rfl

theorem rat_brain_atlas_ok (env : Env) (st : St) (ml ap dv : ℝ)
    (h : metaFails env ml ap dv = none) :
    ∃ d base,
      AtlasResponse.from_json d = some base ∧
      rat_brain_atlas env st ml ap dv =
        (⟨(lookupSuccess env st.heap base).1,
          st.calls ++ [atlas_url env.fmt ml ap dv]⟩,
         .ok (lookupSuccess env st.heap base).2) := by
  unfold metaFails at h
  unfold rat_brain_atlas
  cases hhttp : env.httpGet (atlas_url env.fmt ml ap dv) with
  | error cause =>
    simp only [hhttp] at h
    exact Option.noConfusion h
  | ok body =>
    cases hfast : env.jsonFast body with
    | some d =>
      simp only [hhttp, hfast] at h ⊢
      obtain ⟨base, hfj, hrun⟩ := afterParse_classify_none env
        ⟨st.heap, st.calls ++ [atlas_url env.fmt ml ap dv]⟩ d h
      exact ⟨d, base, hfj, hrun⟩
    | none =>
      cases hfb : env.jsonFallback body with
      | some d =>
        simp only [hhttp, hfast, hfb] at h ⊢
        obtain ⟨base, hfj, hrun⟩ := afterParse_classify_none env
          ⟨st.heap, st.calls ++ [atlas_url env.fmt ml ap dv]⟩ d h
        exact ⟨d, base, hfj, hrun⟩
      | none =>
        simp only [hhttp, hfast, hfb] at h
        exact Option.noConfusion h

/-- The planes built by `AtlasResponse.from_json` carry no images yet. -/
theorem planeOfJson_blank (d : JVal) (k : String) (p : PlaneInfo)
    (hp : planeOfJson d k = some p) :
    p.image = none ∧ p.image_marked = none := by
  unfold planeOfJson at hp
  cases h1 : jget d k with
  | none => rw [h1] at hp; exact Option.noConfusion hp
  | some q =>
    simp only [h1] at hp
    cases h2 : jget q "top" with
    | none => simp only [h2] at hp; exact Option.noConfusion hp
    | some t =>
      cases h3 : jget q "left" with
      | none => simp only [h2, h3] at hp; exact Option.noConfusion hp
      | some l =>
        cases h4 : jget q "image_url" with
        | none => simp only [h2, h3, h4] at hp; exact Option.noConfusion hp
        | some u =>
          simp only [h2, h3, h4] at hp
          cases h5 : pyInt t with
          | none => simp only [h5] at hp; exact Option.noConfusion hp
          | some ti =>
            cases h6 : pyInt l with
            | none => simp only [h5, h6] at hp; exact Option.noConfusion hp
            | some li =>
              simp only [h5, h6] at hp
              cases hp
              exact ⟨rfl, rfl⟩

theorem from_json_blank (d : JVal) (base : AtlasResponse)
    (hb : AtlasResponse.from_json d = some base) :
    base.coronal.image = none ∧ base.coronal.image_marked = none ∧
    base.sagittal.image = none ∧ base.sagittal.image_marked = none ∧
    base.horizontal.image = none ∧ base.horizontal.image_marked = none := by
  unfold AtlasResponse.from_json at hb
  cases h1 : planeOfJson d "coronal" with
  | none => rw [h1] at hb; exact Option.noConfusion hb
  | some c =>
    cases h2 : planeOfJson d "sagittal" with
    | none => simp only [h1, h2] at hb; exact Option.noConfusion hb
    | some s =>
      cases h3 : planeOfJson d "horizontal" with
      | none => simp only [h1, h2, h3] at hb; exact Option.noConfusion hb
      | some hz =>
        simp only [h1, h2, h3] at hb
        cases hb
        obtain ⟨c1, c2⟩ := planeOfJson_blank d "coronal" c h1
        obtain ⟨s1, s2⟩ := planeOfJson_blank d "sagittal" s h2
        obtain ⟨z1, z2⟩ := planeOfJson_blank d "horizontal" hz h3
        exact ⟨c1, c2, s1, s2, z1, z2⟩

/-! ## Claims C3 and C10 -/

theorem errOf_rat_brain_atlas (env : Env) (st : St) (ml ap dv : ℝ) :
    errOf (rat_brain_atlas env st ml ap dv).2 = metaFails env ml ap dv := by
  cases hm : metaFails env ml ap dv with
  | some e => rw [rat_brain_atlas_err env st ml ap dv e hm]; rfl
  | none =>
    obtain ⟨d, base, _, hrun⟩ := rat_brain_atlas_ok env st ml ap dv hm
    rw [hrun]
    rfl

/-- The parsed body under the two fallback strategies of the source
(`r.json()`, then `json.loads` on the decoded bytes). -/
def parsedDoc (env : Env) (body : List Nat) : Option JVal :=
  match env.jsonFast body with
  | some d => some d
  | none => env.jsonFallback body

/-- The error cases of the slice lookup as the (amended) claim states
them: (1) the request cannot complete — transport error carrying the
constructed URL and the cause; (2) the body parses under no fallback
strategy — parse error carrying the first 200 bytes; (3) the parsed
body carries a truthy error field — remote error surfacing that field;
(4) the parsed, non-error body does not yield the three well-formed
plane objects — a bare structural error. -/
def claimedLookupError (env : Env) (ml ap dv : ℝ) : Option AtlasError :=
  let url := atlas_url env.fmt ml ap dv
  match env.httpGet url with
  | .error cause => some (.transport url cause)
  | .ok body =>
    match parsedDoc env body with
    | none => some (.parse (body.take 200))
    | some d =>
      match jget d "error" with
      | some v =>
        if truthy v then some (.remote v)
        else if (AtlasResponse.from_json d).isSome then none
        else some .structural
      | none =>
        if (AtlasResponse.from_json d).isSome then none
        else some .structural

/-- C3 (amended): `rat_brain_atlas` raises an error in exactly FOUR
cases: the three stated by the claim, with the stated diagnostics, plus
a fourth — the body parses as structured data and carries no truthy
error field, but the three plane objects cannot be extracted from it —
which escapes the dataclass conversion as a bare error carrying none of
the stated diagnostics.  The theorem characterises the error outcome of
every lookup as exactly this four-way case list. -/
theorem c3_amended (env : Env) (st : St) (ml ap dv : ℝ) :
    errOf (rat_brain_atlas env st ml ap dv).2 =
      claimedLookupError env ml ap dv := by
  rw [errOf_rat_brain_atlas]
  unfold metaFails claimedLookupError parsedDoc
  cases hhttp : env.httpGet (atlas_url env.fmt ml ap dv) with
  | error cause => simp only [hhttp]
  | ok body =>
    cases hfast : env.jsonFast body with
    | some d => simp only [hhttp, hfast]; rfl
    | none =>
      cases hfb : env.jsonFallback body with
      | some d => simp only [hhttp, hfast, hfb]; rfl
      | none => simp only [hhttp, hfast, hfb]

/-- An environment whose metadata request succeeds and parses to the
empty JSON object: structurally malformed but not an error response. -/
def envC3 : Env where
  fmt := fun _ => "z"
  httpGet := fun _ => .ok []
  jsonFast := fun _ => some (.jobj [])
  jsonFallback := fun _ => none
  readImage := fun _ => none
  hasPIL := true

/-- C3: the claim as stated ("exactly three cases, each carrying the
stated diagnostic") is false.  A body that parses to `{}` completes the
request, parses fine, and carries no error field, yet the lookup still
raises — an error that is none of the three stated kinds. -/
theorem c3_counterexample :
    (rat_brain_atlas envC3 ⟨[], []⟩ 0 0 0).2 =
        .error AtlasError.structural ∧
      (∀ u c, AtlasError.structural ≠ AtlasError.transport u c) ∧
      (∀ b, AtlasError.structural ≠ AtlasError.parse b) ∧
      (∀ v, AtlasError.structural ≠ AtlasError.remote v) :=
  ⟨rfl, fun _ _ h => AtlasError.noConfusion h,
    fun _ h => AtlasError.noConfusion h,
    fun _ h => AtlasError.noConfusion h⟩

/-- C10: for a derived target point stored as (AP, ML, DV), the lookup
helper `S_at` issues exactly one metadata request whose URL is
`API_BASE` followed by `?ml=<ML>&ap=<AP>&dv=<DV>` — the first two
stored coordinates swapped into the API parameter order (numeric
rendering abstracted as `env.fmt`). -/
theorem c10_query_order (env : Env) (st : St) (p : Point3) :
    (S_at env st p).1.calls =
      st.calls ++
        [API_BASE ++ "?ml=" ++ env.fmt p.ml ++ "&ap=" ++ env.fmt p.ap ++
          "&dv=" ++ env.fmt p.dv] :=
  rat_brain_atlas_calls env st p.ml p.ap p.dv

/-! ### Overlay loop lemmas -/

theorem markEntry_keeps (h : Heap) (r : ℤ) (multi : Option (List MarkCircle))
    (e : AtlasResponse) :
    HeapExtends h (markEntry h r multi e).1 ∧
    (markEntry h r multi e).2.coronal.top = e.coronal.top ∧
    (markEntry h r multi e).2.coronal.left = e.coronal.left ∧
    (markEntry h r multi e).2.coronal.image_url = e.coronal.image_url ∧
    (markEntry h r multi e).2.coronal.image = e.coronal.image ∧
    (markEntry h r multi e).2.sagittal = e.sagittal ∧
    (markEntry h r multi e).2.horizontal.top = e.horizontal.top ∧
    (markEntry h r multi e).2.horizontal.left = e.horizontal.left ∧
    (markEntry h r multi e).2.horizontal.image_url = e.horizontal.image_url ∧
    (markEntry h r multi e).2.horizontal.image = e.horizontal.image := by
  obtain ⟨ct, cl, cu, ci, ce⟩ := markCoronal_keeps h r e.coronal
  obtain ⟨ht, hl, hu, hi, he⟩ :=
    markHorizontal_keeps (markCoronal h r e.coronal).1 r multi e.horizontal
  exact ⟨ce.trans he, ct, cl, cu, ci, rfl, ht, hl, hu, hi⟩

theorem markEntries_keeps (es : List AtlasResponse) (h : Heap) (r : ℤ)
    (multi : Option (List MarkCircle)) :
    HeapExtends h (markEntries h r multi es).1 ∧
    (markEntries h r multi es).2.length = es.length := by
  induction es generalizing h with
  | nil => exact ⟨HeapExtends.refl h, rfl⟩
  | cons e es ih =>
    obtain ⟨he1, _⟩ := markEntry_keeps h r multi e
    obtain ⟨he2, hlen⟩ := ih (markEntry h r multi e).1
    refine ⟨he1.trans he2, ?_⟩
    show ((markEntry h r multi e).2 ::
        (markEntries (markEntry h r multi e).1 r multi es).2).length =
      es.length + 1
    simp [hlen]

theorem markEntries_get (es : List AtlasResponse) (h : Heap) (r : ℤ)
    (multi : Option (List MarkCircle)) (i : Nat) (e : AtlasResponse)
    (he : es[i]? = some e) :
    ∃ h0, HeapExtends h h0 ∧
      (markEntries h r multi es).2[i]? = some (markEntry h0 r multi e).2 ∧
      HeapExtends (markEntry h0 r multi e).1 (markEntries h r multi es).1 := by
  induction es generalizing h i with
  | nil => simp at he
  | cons e0 es ih =>
    cases i with
    | zero =>
      rw [List.getElem?_cons_zero] at he
      cases he
      refine ⟨h, HeapExtends.refl h, ?_, ?_⟩
      · show ((markEntry h r multi e).2 ::
            (markEntries (markEntry h r multi e).1 r multi es).2)[0]? = _
        rw [List.getElem?_cons_zero]
      · exact (markEntries_keeps es (markEntry h r multi e).1 r multi).1
    | succ i =>
      rw [List.getElem?_cons_succ] at he
      obtain ⟨h0, hh0, hget, hafter⟩ := ih (markEntry h r multi e0).1 i he
      refine ⟨h0, ((markEntry_keeps h r multi e0).1).trans hh0, ?_, hafter⟩
      show ((markEntry h r multi e0).2 ::
          (markEntries (markEntry h r multi e0).1 r multi es).2)[i + 1]? = _
      rw [List.getElem?_cons_succ]
      exact hget

theorem markEntry_horizontal_multi (h : Heap) (r : ℤ) (m : MarkCircle)
    (ms : List MarkCircle) (e : AtlasResponse) (a : Nat)
    (ha : e.horizontal.image = some a) (hlt : a < h.length) :
    ∃ a2, (markEntry h r (some (m :: ms)) e).2.horizontal.image_marked =
        some a2 ∧
      a2 < (markEntry h r (some (m :: ms)) e).1.length ∧
      (markEntry h r (some (m :: ms)) e).1.getD a2 default =
        ⟨(h.getD a default).base, (h.getD a default).circles ++ (m :: ms)⟩ := by
  obtain ⟨_, _, _, _, ce⟩ := markCoronal_keeps h r e.coronal
  obtain ⟨ha1, hval1⟩ := ce.preserve hlt rfl
  obtain ⟨hres2, _, hlen2, hval2⟩ :=
    markHorizontal_multi (markCoronal h r e.coronal).1 r m ms e.horizontal a ha
  refine ⟨(markCoronal h r e.coronal).1.length, ?_, hlen2, ?_⟩
  · show (markHorizontal (markCoronal h r e.coronal).1 r (some (m :: ms))
        e.horizontal).2.image_marked = _
    rw [hres2]
  · show (markHorizontal (markCoronal h r e.coronal).1 r (some (m :: ms))
        e.horizontal).1.getD (markCoronal h r e.coronal).1.length default = _
    rw [hval2, hval1]

theorem markEntry_horizontal_single (h : Heap) (r : ℤ)
    (multi : Option (List MarkCircle)) (e : AtlasResponse) (a : Nat)
    (ha : e.horizontal.image = some a) (hlt : a < h.length)
    (hm : multi = none ∨ multi = some []) :
    ∃ a2, (markEntry h r multi e).2.horizontal.image_marked = some a2 ∧
      a2 < (markEntry h r multi e).1.length ∧
      (markEntry h r multi e).1.getD a2 default =
        ⟨(h.getD a default).base,
         (h.getD a default).circles ++
           [(e.horizontal.left, e.horizontal.top, r)]⟩ := by
  obtain ⟨_, _, _, _, ce⟩ := markCoronal_keeps h r e.coronal
  obtain ⟨ha1, hval1⟩ := ce.preserve hlt rfl
  obtain ⟨hres2, _, hlen2, hval2⟩ :=
    markHorizontal_single (markCoronal h r e.coronal).1 r multi e.horizontal
      a ha hm
  refine ⟨(markCoronal h r e.coronal).1.length, ?_, hlen2, ?_⟩
  · show (markHorizontal (markCoronal h r e.coronal).1 r multi
        e.horizontal).2.image_marked = _
    rw [hres2]
  · show (markHorizontal (markCoronal h r e.coronal).1 r multi
        e.horizontal).1.getD (markCoronal h r e.coronal).1.length default = _
    rw [hval2, hval1]

/-- C7: the overlay pass never mutates a plane's unmarked decoded
image.  One call — and a second call on the result — leaves every heap
cell that existed before the first call (in particular every plane's
decoded image) with its exact prior value, the group keeps its length,
and every field of every entry other than the two `image_marked` fields
is unchanged. -/
theorem c7_overlay_no_mutation (env : Env) (h : Heap) (g : CombinedAtlas)
    (r : ℤ) (multi : Option (List MarkCircle)) :
    (∀ b, b < h.length →
      (_insert_markers_on_planes env h g r multi).1.getD b default =
        h.getD b default) ∧
    (∀ b, b < h.length →
      (_insert_markers_on_planes env
          (_insert_markers_on_planes env h g r multi).1
          (_insert_markers_on_planes env h g r multi).2 r multi).1.getD b
          default = h.getD b default) ∧
    (_insert_markers_on_planes env h g r multi).2.entries.length =
      g.entries.length ∧
    (∀ (i : Nat) (e : AtlasResponse), g.entries[i]? = some e →
      ∃ e2, (_insert_markers_on_planes env h g r multi).2.entries[i]? =
          some e2 ∧
        e2.coronal.image = e.coronal.image ∧
        e2.coronal.top = e.coronal.top ∧
        e2.coronal.left = e.coronal.left ∧
        e2.coronal.image_url = e.coronal.image_url ∧
        e2.sagittal = e.sagittal ∧
        e2.horizontal.image = e.horizontal.image ∧
        e2.horizontal.top = e.horizontal.top ∧
        e2.horizontal.left = e.horizontal.left ∧
        e2.horizontal.image_url = e.horizontal.image_url) := by
  have extAll : ∀ (h2 : Heap) (g2 : CombinedAtlas),
      HeapExtends h2 (_insert_markers_on_planes env h2 g2 r multi).1 := by
    intro h2 g2
    cases hpil : env.hasPIL with
    | false =>
      simp only [_insert_markers_on_planes, hpil, Bool.false_eq_true,
        if_false]
      exact HeapExtends.refl h2
    | true =>
      simp only [_insert_markers_on_planes, hpil, if_true]
      exact (markEntries_keeps g2.entries h2 r multi).1
  refine ⟨(extAll h g).2, fun b hb =>
    ((extAll h g).trans (extAll _ _)).2 b hb, ?_, ?_⟩
  · cases hpil : env.hasPIL with
    | false =>
      simp only [_insert_markers_on_planes, hpil, Bool.false_eq_true,
        if_false]
    | true =>
      simp only [_insert_markers_on_planes, hpil, if_true]
      exact (markEntries_keeps g.entries h r multi).2
  · intro i e he
    cases hpil : env.hasPIL with
    | false =>
      simp only [_insert_markers_on_planes, hpil, Bool.false_eq_true,
        if_false]
      exact ⟨e, he, rfl, rfl, rfl, rfl, rfl, rfl, rfl, rfl, rfl⟩
    | true =>
      simp only [_insert_markers_on_planes, hpil, if_true]
      obtain ⟨h0, _, hget, _⟩ := markEntries_get g.entries h r multi i e he
      obtain ⟨_, ct, cl, cu, ci, cs, ht, hl, hu, hi⟩ :=
        markEntry_keeps h0 r multi e
      exact ⟨(markEntry h0 r multi e).2, hget, ci, ct, cl, cu, cs, hi, ht,
        hl, hu⟩

/-- C8: with a supplied non-empty horizontal point list, every bundle of
the group whose horizontal plane has a decoded image gets a marked
horizontal copy carrying one filled circle for every point of that
shared list appended to the copied image; with the list not supplied,
the horizontal plane falls back to one circle at the bundle's own
`(left, top)` with radius `radius_px`, as the coronal branch does. -/
theorem c8_horizontal_markers (env : Env) (h : Heap) (g : CombinedAtlas)
    (r : ℤ) (pts : List MarkCircle) (i : Nat) (e : AtlasResponse) (a : Nat)
    (henv : env.hasPIL = true)
    (he : g.entries[i]? = some e)
    (ha : e.horizontal.image = some a)
    (hlt : a < h.length) :
    (∀ m ms, pts = m :: ms →
      ∃ a2 e2,
        (_insert_markers_on_planes env h g r (some pts)).2.entries[i]? =
          some e2 ∧
        e2.horizontal.image_marked = some a2 ∧
        (_insert_markers_on_planes env h g r (some pts)).1.getD a2 default =
          ⟨(h.getD a default).base, (h.getD a default).circles ++ pts⟩) ∧
    (∃ a2 e2,
      (_insert_markers_on_planes env h g r none).2.entries[i]? = some e2 ∧
      e2.horizontal.image_marked = some a2 ∧
      (_insert_markers_on_planes env h g r none).1.getD a2 default =
        ⟨(h.getD a default).base,
         (h.getD a default).circles ++
           [(e.horizontal.left, e.horizontal.top, r)]⟩) := by
  constructor
  · intro m ms hpts
    subst hpts
    have hins : _insert_markers_on_planes env h g r (some (m :: ms)) =
        ((markEntries h r (some (m :: ms)) g.entries).1,
         ⟨(markEntries h r (some (m :: ms)) g.entries).2⟩) := by
      simp [_insert_markers_on_planes, henv]
    rw [hins]
    obtain ⟨h0, hh0, hget, hafter⟩ :=
      markEntries_get g.entries h r (some (m :: ms)) i e he
    obtain ⟨hlt0, hval0⟩ := hh0.preserve hlt rfl
    obtain ⟨a2, hmk, ha2lt, ha2val⟩ :=
      markEntry_horizontal_multi h0 r m ms e a ha hlt0
    rw [hval0] at ha2val
    obtain ⟨_, hfin⟩ := hafter.preserve ha2lt ha2val
    exact ⟨a2, (markEntry h0 r (some (m :: ms)) e).2, hget, hmk, hfin⟩
  · have hins : _insert_markers_on_planes env h g r none =
        ((markEntries h r none g.entries).1,
         ⟨(markEntries h r none g.entries).2⟩) := by
      simp [_insert_markers_on_planes, henv]
    rw [hins]
    obtain ⟨h0, hh0, hget, hafter⟩ :=
      markEntries_get g.entries h r none i e he
    obtain ⟨hlt0, hval0⟩ := hh0.preserve hlt rfl
    obtain ⟨a2, hmk, ha2lt, ha2val⟩ :=
      markEntry_horizontal_single h0 r none e a ha hlt0 (Or.inl rfl)
    rw [hval0] at ha2val
    obtain ⟨_, hfin⟩ := hafter.preserve ha2lt ha2val
    exact ⟨a2, (markEntry h0 r none e).2, hget, hmk, hfin⟩

/-- A one-cell heap image used by the concrete overlay witnesses. -/
def imgW : ImgVal := ⟨5, []⟩

/-- A plane whose decoded image lives at heap address 0. -/
def planeW : PlaneInfo := ⟨1, 2, "u", some 0, none⟩

/-- A bundle whose three planes all reference heap address 0. -/
def entryW : AtlasResponse := ⟨planeW, planeW, planeW⟩

/-- A concrete environment with the drawing capability available. -/
def envPIL : Env :=
  ⟨fun _ => "z", fun _ => .ok [], fun _ => none, fun _ => none,
   fun _ => none, true⟩

/-- Witness for `c7_overlay_no_mutation`: on a concrete one-entry group
the overlay call leaves the decoded image cell at address 0 intact. -/
theorem c7_witness :
    0 < ([imgW] : Heap).length ∧
    (_insert_markers_on_planes envPIL [imgW] ⟨[entryW]⟩ 3 none).1.getD 0
        default = ([imgW] : Heap).getD 0 default :=
  ⟨by decide,
    (c7_overlay_no_mutation envPIL [imgW] ⟨[entryW]⟩ 3 none).1 0 (by decide)⟩

/-- Witness for `c8_horizontal_markers`: on a concrete one-entry group
with shared point list `[(7, 8, 2)]`, the horizontal plane receives a
marked copy carrying exactly that circle list. -/
theorem c8_witness :
    ∃ a2 e2,
      (_insert_markers_on_planes envPIL [imgW] ⟨[entryW]⟩ 3
          (some [(7, 8, 2)])).2.entries[0]? = some e2 ∧
      e2.horizontal.image_marked = some a2 ∧
      (_insert_markers_on_planes envPIL [imgW] ⟨[entryW]⟩ 3
          (some [(7, 8, 2)])).1.getD a2 default =
        ⟨(([imgW] : Heap).getD 0 default).base,
         (([imgW] : Heap).getD 0 default).circles ++ [(7, 8, 2)]⟩ :=
  (c8_horizontal_markers envPIL [imgW] ⟨[entryW]⟩ 3 [(7, 8, 2)] 0 entryW 0
      rfl rfl rfl (by decide)).1 (7, 8, 2) [] rfl

/-! ### Per-plane degradation lemmas (claim C5) -/

theorem mark_of_fetch_fail (env : Env) (hf hm : Heap) (p : PlaneInfo)
    (hri : env.readImage p.image_url = none) :
    (autoMarkPlane hm (fetchPlane env hf p).2).2.image = none ∧
    (autoMarkPlane hm (fetchPlane env hf p).2).2.image_marked =
      p.image_marked ∧
    (autoMarkPlane hm (fetchPlane env hf p).2).2.image_url = p.image_url := by
  rw [fetchPlane_none env hf p hri, autoMarkPlane_none hm _ rfl]
  exact ⟨rfl, rfl, rfl⟩

theorem lookupSuccess_coronal (env : Env) (h : Heap) (base : AtlasResponse)
    (hbm : base.coronal.image_marked = none) :
    (lookupSuccess env h base).2.coronal.image_url =
      base.coronal.image_url ∧
    (env.readImage base.coronal.image_url = none →
      (lookupSuccess env h base).2.coronal.image = none ∧
      (lookupSuccess env h base).2.coronal.image_marked = none) := by
  rw [lookupSuccess_def]
  cases hpil : env.hasPIL with
  | false =>
    simp only [Bool.false_eq_true, if_false]
    refine ⟨(fetchPlane_keeps env h base.coronal).2.2.1, fun hri => ?_⟩
    show (fetchPlane env h base.coronal).2.image = none ∧
      (fetchPlane env h base.coronal).2.image_marked = none
    rw [fetchPlane_none env h base.coronal hri]
    exact ⟨rfl, hbm⟩
  | true =>
    simp only [if_true]
    constructor
    · show (autoMarkPlane (fetchImages env h base).1
          (fetchPlane env h base.coronal).2).2.image_url = _
      exact ((autoMarkPlane_keeps _ _).2.2.1).trans
        (fetchPlane_keeps env h base.coronal).2.2.1
    · intro hri
      obtain ⟨h1, h2, _⟩ := mark_of_fetch_fail env h
        (fetchImages env h base).1 base.coronal hri
      exact ⟨h1, h2.trans hbm⟩

theorem lookupSuccess_sagittal (env : Env) (h : Heap) (base : AtlasResponse)
    (hbm : base.sagittal.image_marked = none) :
    (lookupSuccess env h base).2.sagittal.image_url =
      base.sagittal.image_url ∧
    (env.readImage base.sagittal.image_url = none →
      (lookupSuccess env h base).2.sagittal.image = none ∧
      (lookupSuccess env h base).2.sagittal.image_marked = none) := by
  rw [lookupSuccess_def]
  cases hpil : env.hasPIL with
  | false =>
    simp only [Bool.false_eq_true, if_false]
    refine ⟨(fetchPlane_keeps env (fetchPlane env h base.coronal).1
      base.sagittal).2.2.1, fun hri => ?_⟩
    show (fetchPlane env (fetchPlane env h base.coronal).1
        base.sagittal).2.image = none ∧
      (fetchPlane env (fetchPlane env h base.coronal).1
        base.sagittal).2.image_marked = none
    rw [fetchPlane_none env _ base.sagittal hri]
    exact ⟨rfl, hbm⟩
  | true =>
    simp only [if_true]
    constructor
    · show (autoMarkPlane
          (autoMarkPlane (fetchImages env h base).1
            (fetchImages env h base).2.coronal).1
          (fetchPlane env (fetchPlane env h base.coronal).1
            base.sagittal).2).2.image_url = _
      exact ((autoMarkPlane_keeps _ _).2.2.1).trans
        (fetchPlane_keeps env _ base.sagittal).2.2.1
    · intro hri
      obtain ⟨h1, h2, _⟩ := mark_of_fetch_fail env
        (fetchPlane env h base.coronal).1
        (autoMarkPlane (fetchImages env h base).1
          (fetchImages env h base).2.coronal).1 base.sagittal hri
      exact ⟨h1, h2.trans hbm⟩

theorem lookupSuccess_horizontal (env : Env) (h : Heap)
    (base : AtlasResponse) (hbm : base.horizontal.image_marked = none) :
    (lookupSuccess env h base).2.horizontal.image_url =
      base.horizontal.image_url ∧
    (env.readImage base.horizontal.image_url = none →
      (lookupSuccess env h base).2.horizontal.image = none ∧
      (lookupSuccess env h base).2.horizontal.image_marked = none) := by
  rw [lookupSuccess_def]
  cases hpil : env.hasPIL with
  | false =>
    simp only [Bool.false_eq_true, if_false]
    refine ⟨(fetchPlane_keeps env
      (fetchPlane env (fetchPlane env h base.coronal).1 base.sagittal).1
      base.horizontal).2.2.1, fun hri => ?_⟩
    show (fetchPlane env
        (fetchPlane env (fetchPlane env h base.coronal).1 base.sagittal).1
        base.horizontal).2.image = none ∧
      (fetchPlane env
        (fetchPlane env (fetchPlane env h base.coronal).1 base.sagittal).1
        base.horizontal).2.image_marked = none
    rw [fetchPlane_none env _ base.horizontal hri]
    exact ⟨rfl, hbm⟩
  | true =>
    simp only [if_true]
    constructor
    · show (autoMarkPlane
          (autoMarkPlane
            (autoMarkPlane (fetchImages env h base).1
              (fetchImages env h base).2.coronal).1
            (fetchImages env h base).2.sagittal).1
          (fetchPlane env
            (fetchPlane env (fetchPlane env h base.coronal).1
              base.sagittal).1 base.horizontal).2).2.image_url = _
      exact ((autoMarkPlane_keeps _ _).2.2.1).trans
        (fetchPlane_keeps env _ base.horizontal).2.2.1
    · intro hri
      obtain ⟨h1, h2, _⟩ := mark_of_fetch_fail env
        (fetchPlane env (fetchPlane env h base.coronal).1 base.sagittal).1
        (autoMarkPlane
          (autoMarkPlane (fetchImages env h base).1
            (fetchImages env h base).2.coronal).1
          (fetchImages env h base).2.sagittal).1 base.horizontal hri
      exact ⟨h1, h2.trans hbm⟩

/-- C5: when the metadata stage succeeds, the lookup returns a full
bundle even if image fetches fail, and every plane whose image fetch or
decode failed has `image = none` and `image_marked = none`; in
particular all three may fail without the lookup raising. -/
theorem c5_image_failure_degrades (env : Env) (st : St) (ml ap dv : ℝ)
    (hnone : metaFails env ml ap dv = none) :
    ∃ st2 resp, rat_brain_atlas env st ml ap dv = (st2, .ok resp) ∧
      (env.readImage resp.coronal.image_url = none →
        resp.coronal.image = none ∧ resp.coronal.image_marked = none) ∧
      (env.readImage resp.sagittal.image_url = none →
        resp.sagittal.image = none ∧ resp.sagittal.image_marked = none) ∧
      (env.readImage resp.horizontal.image_url = none →
        resp.horizontal.image = none ∧
          resp.horizontal.image_marked = none) := by
  obtain ⟨d, base, hfj, hrun⟩ := rat_brain_atlas_ok env st ml ap dv hnone
  obtain ⟨_, cm, _, sm, _, hm⟩ := from_json_blank d base hfj
  obtain ⟨cu, cf⟩ := lookupSuccess_coronal env st.heap base cm
  obtain ⟨su, sf⟩ := lookupSuccess_sagittal env st.heap base sm
  obtain ⟨hu, hf⟩ := lookupSuccess_horizontal env st.heap base hm
  refine ⟨_, _, hrun, fun hri => ?_, fun hri => ?_, fun hri => ?_⟩
  · rw [cu] at hri
    exact cf hri
  · rw [su] at hri
    exact sf hri
  · rw [hu] at hri
    exact hf hri

/-- One well-formed plane object of a fabricated metadata response. -/
def planeDocW : JVal :=
  .jobj [("top", .jnum 5), ("left", .jnum 10), ("image_url", .jstr "u")]

/-- A fabricated metadata response with all three planes present. -/
def docW : JVal :=
  .jobj [("coronal", planeDocW), ("sagittal", planeDocW),
         ("horizontal", planeDocW)]

/-- A concrete environment whose metadata request succeeds but whose
image fetches all fail. -/
def envNoImg : Env :=
  ⟨fun _ => "z", fun _ => .ok [], fun _ => some docW, fun _ => none,
   fun _ => none, true⟩

/-- Witness for `c5_image_failure_degrades`: all three image fetches
failing still yields a successful bundle. -/
theorem c5_witness :
    metaFails envNoImg 0 0 0 = none ∧
    (∃ st2 resp, rat_brain_atlas envNoImg ⟨[], []⟩ 0 0 0 =
        (st2, .ok resp) ∧
      (envNoImg.readImage resp.coronal.image_url = none →
        resp.coronal.image = none ∧ resp.coronal.image_marked = none) ∧
      (envNoImg.readImage resp.sagittal.image_url = none →
        resp.sagittal.image = none ∧ resp.sagittal.image_marked = none) ∧
      (envNoImg.readImage resp.horizontal.image_url = none →
        resp.horizontal.image = none ∧
          resp.horizontal.image_marked = none)) :=
  ⟨rfl, c5_image_failure_degrades envNoImg ⟨[], []⟩ 0 0 0 rfl⟩

/-! ### Default-marking success lemma (claim C6) -/

theorem fetch_then_mark_ok (env : Env) (hf : Heap) (p : PlaneInfo)
    (hm : Heap) (hfm : HeapExtends (fetchPlane env hf p).1 hm)
    (hfin : Heap)
    (hmf : HeapExtends (autoMarkPlane hm (fetchPlane env hf p).2).1 hfin)
    (a : Nat)
    (ha : (autoMarkPlane hm (fetchPlane env hf p).2).2.image = some a) :
    ∃ a2 cid, env.readImage p.image_url = some cid ∧
      (autoMarkPlane hm (fetchPlane env hf p).2).2.image_marked = some a2 ∧
      hfin.getD a default = ⟨cid, []⟩ ∧
      hfin.getD a2 default = ⟨cid, [(p.left, p.top, 10)]⟩ := by
  cases hri : env.readImage p.image_url with
  | none =>
    rw [fetchPlane_none env hf p hri, autoMarkPlane_none hm _ rfl] at ha
    exact absurd ha (by simp)
  | some cid =>
    rw [fetchPlane_some env hf p cid hri] at ha hfm hmf ⊢
    have himg : (autoMarkPlane hm
        ({ p with image := some hf.length } : PlaneInfo)).2.image =
        some hf.length :=
      (autoMarkPlane_keeps hm _).2.2.2.1
    have haeq : a = hf.length := by
      rw [himg] at ha
      exact Option.some_injective _ ha.symm
    subst haeq
    obtain ⟨hres, hext, hlen, hval⟩ :=
      autoMarkPlane_some hm ({ p with image := some hf.length }) hf.length
        rfl
    have hstep1 : hf.length < (hf ++ [(⟨cid, []⟩ : ImgVal)]).length := by
      simp
    have hstep2 : (hf ++ [(⟨cid, []⟩ : ImgVal)] : Heap).getD hf.length
        default = ⟨cid, []⟩ := heapGetD_snoc_self hf _
    obtain ⟨hltm, hvalm⟩ := hfm.preserve hstep1 hstep2
    rw [hvalm] at hval
    obtain ⟨_, hval2⟩ := (hext.trans hmf).preserve hltm hvalm
    obtain ⟨_, hvalmk⟩ := hmf.preserve hlen hval
    refine ⟨hm.length, cid, rfl, ?_, hval2, ?_⟩
    · rw [hres]
    · rw [hvalmk]
      simp

/-- C6: with the image capability available, every bundle freshly
returned by `rat_brain_atlas` has, on each plane whose image was
decoded, a marked copy carrying exactly one filled circle of radius 10
centred at that plane's own `(left, top)`, drawn on a copy of the
decoded image, while the unmarked decoded image itself still carries no
drawing. -/
theorem c6_default_marking (env : Env) (st : St) (ml ap dv : ℝ)
    (st2 : St) (resp : AtlasResponse)
    (hpil : env.hasPIL = true)
    (hok : rat_brain_atlas env st ml ap dv = (st2, .ok resp)) :
    (∀ a : Nat, resp.coronal.image = some a →
      ∃ a2, resp.coronal.image_marked = some a2 ∧
        (st2.heap.getD a default).circles = [] ∧
        st2.heap.getD a2 default =
          ⟨(st2.heap.getD a default).base,
           [(resp.coronal.left, resp.coronal.top, 10)]⟩) ∧
    (∀ a : Nat, resp.sagittal.image = some a →
      ∃ a2, resp.sagittal.image_marked = some a2 ∧
        (st2.heap.getD a default).circles = [] ∧
        st2.heap.getD a2 default =
          ⟨(st2.heap.getD a default).base,
           [(resp.sagittal.left, resp.sagittal.top, 10)]⟩) ∧
    (∀ a : Nat, resp.horizontal.image = some a →
      ∃ a2, resp.horizontal.image_marked = some a2 ∧
        (st2.heap.getD a default).circles = [] ∧
        st2.heap.getD a2 default =
          ⟨(st2.heap.getD a default).base,
           [(resp.horizontal.left, resp.horizontal.top, 10)]⟩) := by
  have herr := errOf_rat_brain_atlas env st ml ap dv
  rw [hok] at herr
  obtain ⟨d, base, hfj, hrun⟩ := rat_brain_atlas_ok env st ml ap dv herr.symm
  rw [hok] at hrun
  have hsteq : st2 = ⟨(lookupSuccess env st.heap base).1,
      st.calls ++ [atlas_url env.fmt ml ap dv]⟩ := congrArg Prod.fst hrun
  have hreq : resp = (lookupSuccess env st.heap base).2 := by
    have h2 := congrArg Prod.snd hrun
    exact Except.ok.inj h2
  subst hsteq
  subst hreq
  have hls : lookupSuccess env st.heap base =
      autoMark (fetchImages env st.heap base).1
        (fetchImages env st.heap base).2 := by
    rw [lookupSuccess_def, hpil, if_pos rfl]
  rw [hls]
  have hfm1 : HeapExtends (fetchPlane env st.heap base.coronal).1
      (fetchImages env st.heap base).1 :=
    (fetchPlane_extends env _ base.sagittal).trans
      (fetchPlane_extends env _ base.horizontal)
  have hfm2 : HeapExtends
      (fetchPlane env (fetchPlane env st.heap base.coronal).1
        base.sagittal).1
      (autoMarkPlane (fetchImages env st.heap base).1
        (fetchImages env st.heap base).2.coronal).1 :=
    (fetchPlane_extends env _ base.horizontal).trans
      (autoMarkPlane_keeps _ _).2.2.2.2
  have hfm3 : HeapExtends
      (fetchPlane env
        (fetchPlane env (fetchPlane env st.heap base.coronal).1
          base.sagittal).1 base.horizontal).1
      (autoMarkPlane
        (autoMarkPlane (fetchImages env st.heap base).1
          (fetchImages env st.heap base).2.coronal).1
        (fetchImages env st.heap base).2.sagittal).1 :=
    ((autoMarkPlane_keeps _ _).2.2.2.2).trans
      (autoMarkPlane_keeps _ _).2.2.2.2
  have hmf1 : HeapExtends
      (autoMarkPlane (fetchImages env st.heap base).1
        (fetchPlane env st.heap base.coronal).2).1
      (autoMark (fetchImages env st.heap base).1
        (fetchImages env st.heap base).2).1 :=
    ((autoMarkPlane_keeps _ _).2.2.2.2).trans
      (autoMarkPlane_keeps _ _).2.2.2.2
  have hmf2 : HeapExtends
      (autoMarkPlane
        (autoMarkPlane (fetchImages env st.heap base).1
          (fetchImages env st.heap base).2.coronal).1
        (fetchPlane env (fetchPlane env st.heap base.coronal).1
          base.sagittal).2).1
      (autoMark (fetchImages env st.heap base).1
        (fetchImages env st.heap base).2).1 :=
    (autoMarkPlane_keeps _ _).2.2.2.2
  have hmf3 : HeapExtends
      (autoMarkPlane
        (autoMarkPlane
          (autoMarkPlane (fetchImages env st.heap base).1
            (fetchImages env st.heap base).2.coronal).1
          (fetchImages env st.heap base).2.sagittal).1
        (fetchPlane env
          (fetchPlane env (fetchPlane env st.heap base.coronal).1
            base.sagittal).1 base.horizontal).2).1
      (autoMark (fetchImages env st.heap base).1
        (fetchImages env st.heap base).2).1 :=
    HeapExtends.refl _
  refine ⟨fun a ha => ?_, fun a ha => ?_, fun a ha => ?_⟩
  · obtain ⟨a2, cid, hri, hmk, hva, hva2⟩ :=
      fetch_then_mark_ok env st.heap base.coronal
        (fetchImages env st.heap base).1 hfm1 _ hmf1 a ha
    have hleft : (autoMark (fetchImages env st.heap base).1
        (fetchImages env st.heap base).2).2.coronal.left =
        base.coronal.left :=
      ((autoMarkPlane_keeps _ _).2.1).trans
        (fetchPlane_keeps env st.heap base.coronal).2.1
    have htop : (autoMark (fetchImages env st.heap base).1
        (fetchImages env st.heap base).2).2.coronal.top =
        base.coronal.top :=
      ((autoMarkPlane_keeps _ _).1).trans
        (fetchPlane_keeps env st.heap base.coronal).1
    refine ⟨a2, hmk, ?_, ?_⟩
    · rw [hva]
    · rw [hva, hva2, hleft, htop]
  · obtain ⟨a2, cid, hri, hmk, hva, hva2⟩ :=
      fetch_then_mark_ok env (fetchPlane env st.heap base.coronal).1
        base.sagittal
        (autoMarkPlane (fetchImages env st.heap base).1
          (fetchImages env st.heap base).2.coronal).1 hfm2 _ hmf2 a ha
    have hleft : (autoMark (fetchImages env st.heap base).1
        (fetchImages env st.heap base).2).2.sagittal.left =
        base.sagittal.left :=
      ((autoMarkPlane_keeps _ _).2.1).trans
        (fetchPlane_keeps env _ base.sagittal).2.1
    have htop : (autoMark (fetchImages env st.heap base).1
        (fetchImages env st.heap base).2).2.sagittal.top =
        base.sagittal.top :=
      ((autoMarkPlane_keeps _ _).1).trans
        (fetchPlane_keeps env _ base.sagittal).1
    refine ⟨a2, hmk, ?_, ?_⟩
    · rw [hva]
    · rw [hva, hva2, hleft, htop]
  · obtain ⟨a2, cid, hri, hmk, hva, hva2⟩ :=
      fetch_then_mark_ok env
        (fetchPlane env (fetchPlane env st.heap base.coronal).1
          base.sagittal).1 base.horizontal
        (autoMarkPlane
          (autoMarkPlane (fetchImages env st.heap base).1
            (fetchImages env st.heap base).2.coronal).1
          (fetchImages env st.heap base).2.sagittal).1 hfm3 _ hmf3 a ha
    have hleft : (autoMark (fetchImages env st.heap base).1
        (fetchImages env st.heap base).2).2.horizontal.left =
        base.horizontal.left :=
      ((autoMarkPlane_keeps _ _).2.1).trans
        (fetchPlane_keeps env _ base.horizontal).2.1
    have htop : (autoMark (fetchImages env st.heap base).1
        (fetchImages env st.heap base).2).2.horizontal.top =
        base.horizontal.top :=
      ((autoMarkPlane_keeps _ _).1).trans
        (fetchPlane_keeps env _ base.horizontal).1
    refine ⟨a2, hmk, ?_, ?_⟩
    · rw [hva]
    · rw [hva, hva2, hleft, htop]

/-- A concrete environment whose metadata request and image fetches all
succeed. -/
def envImg : Env :=
  ⟨fun _ => "z", fun _ => .ok [], fun _ => some docW, fun _ => none,
   fun _ => some 7, true⟩

/-- Witness for `c6_default_marking` on a concrete successful lookup. -/
theorem c6_witness :
    envImg.hasPIL = true ∧
    ∃ st2 resp, rat_brain_atlas envImg ⟨[], []⟩ 0 0 0 = (st2, .ok resp) ∧
      (∀ a : Nat, resp.coronal.image = some a →
        ∃ a2, resp.coronal.image_marked = some a2 ∧
          (st2.heap.getD a default).circles = [] ∧
          st2.heap.getD a2 default =
            ⟨(st2.heap.getD a default).base,
             [(resp.coronal.left, resp.coronal.top, 10)]⟩) :=
  ⟨rfl, _, _, rfl,
    (c6_default_marking envImg ⟨[], []⟩ 0 0 0 _ _ rfl rfl).1⟩

/-! ### Claim C4 -/

theorem S_at_err (env : Env) (st : St) (c : Point3) (e : AtlasError)
    (h : metaFails env c.ml c.ap c.dv = some e) :
    S_at env st c =
      (⟨st.heap, st.calls ++ [atlas_url env.fmt c.ml c.ap c.dv]⟩,
       .error e) :=
  rat_brain_atlas_err env st c.ml c.ap c.dv e h

theorem S_at_ok (env : Env) (st : St) (c : Point3)
    (h : metaFails env c.ml c.ap c.dv = none) :
    ∃ h2 resp, S_at env st c =
      (⟨h2, st.calls ++ [atlas_url env.fmt c.ml c.ap c.dv]⟩, .ok resp) := by
  obtain ⟨d, base, _, hrun⟩ := rat_brain_atlas_ok env st c.ml c.ap c.dv h
  exact ⟨_, _, hrun⟩

/-- The 3D points the lookup phase queries for a derived target record,
in source order: left, center, right at the bottom, then — only when a
top triplet was derived — left, center, right at the top. -/
def targetPoints (t : Targets) : List Point3 :=
  [t.left_bot, t.center_bot, t.right_bot] ++
    (match t.tops with
     | none => []
     | some (ct, lt, rt) => [lt, ct, rt])

/-- The 3D points the planning function looks up, in source order. -/
noncomputable def plotPoints (AP ML DV angle span skull_t : ℝ)
    (vert_span : Option ℝ) : List Point3 :=
  targetPoints (deriveTargets AP ML DV angle span skull_t vert_span)

theorem rat_brain_atlas_ok_all (env : Env) (ml ap dv : ℝ)
    (h : metaFails env ml ap dv = none) :
    ∃ base, ∀ st : St, rat_brain_atlas env st ml ap dv =
      (⟨(lookupSuccess env st.heap base).1,
        st.calls ++ [atlas_url env.fmt ml ap dv]⟩,
       .ok (lookupSuccess env st.heap base).2) := by
  unfold metaFails at h
  cases hhttp : env.httpGet (atlas_url env.fmt ml ap dv) with
  | error cause =>
    simp only [hhttp] at h
    exact Option.noConfusion h
  | ok body =>
    cases hfast : env.jsonFast body with
    | some d =>
      simp only [hhttp, hfast] at h
      obtain ⟨base, hfj, _⟩ := afterParse_classify_none env ⟨[], []⟩ d h
      refine ⟨base, fun st => ?_⟩
      obtain ⟨base2, hfj2, hrun2⟩ := afterParse_classify_none env
        ⟨st.heap, st.calls ++ [atlas_url env.fmt ml ap dv]⟩ d h
      have hbe : base2 = base := by
        rw [hfj] at hfj2
        exact (Option.some_injective _ hfj2).symm
      subst hbe
      unfold rat_brain_atlas
      simp only [hhttp, hfast]
      exact hrun2
    | none =>
      cases hfb : env.jsonFallback body with
      | some d =>
        simp only [hhttp, hfast, hfb] at h
        obtain ⟨base, hfj, _⟩ := afterParse_classify_none env ⟨[], []⟩ d h
        refine ⟨base, fun st => ?_⟩
        obtain ⟨base2, hfj2, hrun2⟩ := afterParse_classify_none env
          ⟨st.heap, st.calls ++ [atlas_url env.fmt ml ap dv]⟩ d h
        have hbe : base2 = base := by
          rw [hfj] at hfj2
          exact (Option.some_injective _ hfj2).symm
        subst hbe
        unfold rat_brain_atlas
        simp only [hhttp, hfast, hfb]
        exact hrun2
      | none =>
        simp only [hhttp, hfast, hfb] at h
        exact Option.noConfusion h

theorem S_at_err_fun (env : Env) (c : Point3) (e : AtlasError)
    (h : metaFails env c.ml c.ap c.dv = some e) :
    ∀ st : St, S_at env st c =
      (⟨st.heap, st.calls ++ [atlas_url env.fmt c.ml c.ap c.dv]⟩,
       .error e) :=
  fun st => rat_brain_atlas_err env st c.ml c.ap c.dv e h

theorem S_at_ok_fun (env : Env) (c : Point3)
    (h : metaFails env c.ml c.ap c.dv = none) :
    ∃ base, ∀ st : St, S_at env st c =
      (⟨(lookupSuccess env st.heap base).1,
        st.calls ++ [atlas_url env.fmt c.ml c.ap c.dv]⟩,
       .ok (lookupSuccess env st.heap base).2) :=
  rat_brain_atlas_ok_all env c.ml c.ap c.dv h

theorem plotLookups_run (env : Env) (st : St) (t : Targets) (pr : ℤ) :
    (plotLookups env st t pr).1.calls =
      st.calls ++ (firstFailure env (targetPoints t)).1 ∧
    ∀ e : AtlasError,
      ((plotLookups env st t pr).2 = .error e ↔
        (firstFailure env (targetPoints t)).2 = some e) := by
  cases hm1 : metaFails env t.left_bot.ml t.left_bot.ap t.left_bot.dv with
  | some e1 =>
    simp only [plotLookups, targetPoints, S_at_err_fun env t.left_bot e1 hm1,
      firstFailure, hm1, List.cons_append, List.nil_append]
    exact ⟨trivial, fun e => by simp⟩
  | none =>
    obtain ⟨b1, hS1⟩ := S_at_ok_fun env t.left_bot hm1
    cases hm2 : metaFails env t.center_bot.ml t.center_bot.ap
        t.center_bot.dv with
    | some e2 =>
      simp only [plotLookups, targetPoints, hS1,
        S_at_err_fun env t.center_bot e2 hm2, firstFailure, hm1, hm2,
        List.cons_append, List.nil_append]
      exact ⟨by simp, fun e => by simp⟩
    | none =>
      obtain ⟨b2, hS2⟩ := S_at_ok_fun env t.center_bot hm2
      cases hm3 : metaFails env t.right_bot.ml t.right_bot.ap
          t.right_bot.dv with
      | some e3 =>
        simp only [plotLookups, targetPoints, hS1, hS2,
          S_at_err_fun env t.right_bot e3 hm3, firstFailure, hm1, hm2, hm3,
          List.cons_append, List.nil_append]
        exact ⟨by simp, fun e => by simp⟩
      | none =>
        obtain ⟨b3, hS3⟩ := S_at_ok_fun env t.right_bot hm3
        cases htops : t.tops with
        | none =>
          simp only [plotLookups, targetPoints, hS1, hS2, hS3, htops,
            firstFailure, hm1, hm2, hm3, List.cons_append, List.nil_append,
            List.append_nil]
          exact ⟨by simp, fun e => by simp⟩
        | some trip =>
          obtain ⟨ct, lt, rt⟩ := trip
          cases hm4 : metaFails env lt.ml lt.ap lt.dv with
          | some e4 =>
            simp only [plotLookups, targetPoints, hS1, hS2, hS3, htops,
              S_at_err_fun env lt e4 hm4, firstFailure, hm1, hm2, hm3, hm4,
              List.cons_append, List.nil_append]
            exact ⟨by simp, fun e => by simp⟩
          | none =>
            obtain ⟨b4, hS4⟩ := S_at_ok_fun env lt hm4
            cases hm5 : metaFails env ct.ml ct.ap ct.dv with
            | some e5 =>
              simp only [plotLookups, targetPoints, hS1, hS2, hS3, htops,
                hS4, S_at_err_fun env ct e5 hm5, firstFailure, hm1, hm2,
                hm3, hm4, hm5, List.cons_append, List.nil_append]
              exact ⟨by simp, fun e => by simp⟩
            | none =>
              obtain ⟨b5, hS5⟩ := S_at_ok_fun env ct hm5
              cases hm6 : metaFails env rt.ml rt.ap rt.dv with
              | some e6 =>
                simp only [plotLookups, targetPoints, hS1, hS2, hS3, htops,
                  hS4, hS5, S_at_err_fun env rt e6 hm6, firstFailure, hm1,
                  hm2, hm3, hm4, hm5, hm6, List.cons_append,
                  List.nil_append]
                exact ⟨by simp, fun e => by simp⟩
              | none =>
                obtain ⟨b6, hS6⟩ := S_at_ok_fun env rt hm6
                simp only [plotLookups, targetPoints, hS1, hS2, hS3, htops,
                  hS4, hS5, hS6, firstFailure, hm1, hm2, hm3, hm4, hm5,
                  hm6, List.cons_append, List.nil_append]
                exact ⟨by simp, fun e => by simp⟩

/-- C4: any metadata-level lookup failure aborts the entire planning
call.  The chronological metadata request log of `plot_implant_coords`
is exactly the URLs of the queried points up to and including the first
failing one — nothing after it is attempted — and the call returns an
error (no group of bundles) exactly when some lookup failed, namely the
first failure. -/
theorem c4_abort_on_failure (env : Env) (st : St)
    (AP ML DV angle span skull_t : ℝ) (vert_span : Option ℝ) (pr : ℤ) :
    (plot_implant_coords env st AP ML DV angle span skull_t vert_span
        pr).1.calls =
      st.calls ++
        (firstFailure env
          (plotPoints AP ML DV angle span skull_t vert_span)).1 ∧
    ∀ e : AtlasError,
      ((plot_implant_coords env st AP ML DV angle span skull_t vert_span
          pr).2 = .error e ↔
        (firstFailure env
          (plotPoints AP ML DV angle span skull_t vert_span)).2 =
          some e) :=
  plotLookups_run env st (deriveTargets AP ML DV angle span skull_t
    vert_span) pr
